import Mathlib

/-!
Verification development for the espkg-config library (a TypeScript
reimplementation of pkg-config).  The definitions below are a shallow
embedding of the sources under `src/`: `CharPtr.ts` (a C-style cursor over a
mutable character buffer where a written NUL acts as a soft terminator),
`gShell.ts` (shell-style tokenizing and unquoting), `files.ts` (character
stream with one-char pushback) and `PkgConfig.ts` (line reader, package
parser, version comparison, module lists, resolver and flag merger).

Modelling conventions, used throughout:
* JavaScript strings are `String`/`List Char`; the empty-string result of
  `CharPtr.deref` (returned at end of buffer or at an embedded NUL) is
  modelled as `Option Char` being `none`, or by guards `c ≠ nul`.
* `async` functions do not suspend mid-algorithm, so they are embedded as
  pure functions; file I/O is a finite association list from path to file
  contents.
* Fallible code returns `Except`; `throw new Error(msg)` is `.error msg`.
* Unbounded `while` loops over cursors are compiled to recursion that is
  structural either on the remaining character list or on an explicit fuel
  argument; fuel is always called with a value proven (or directly checkable)
  to be large enough, and running out of fuel is an explicit error value.
-/

set_option maxRecDepth 2048

namespace Espkg

/-- Decidable equality for `Except`, so concrete runs of the embedded
fallible functions can be checked with `decide`. -/
instance instDecEqExcept {e a : Type} [DecidableEq e] [DecidableEq a] :
    DecidableEq (Except e a) := fun x y =>
  match x, y with
  | .ok v, .ok w =>
    if h : v = w then isTrue (by rw [h]) else isFalse (fun hh => by cases hh; exact h rfl)
  | .ok _, .error _ => isFalse (fun hh => by cases hh)
  | .error _, .ok _ => isFalse (fun hh => by cases hh)
  | .error v, .error w =>
    if h : v = w then isTrue (by rw [h]) else isFalse (fun hh => by cases hh; exact h rfl)

/-- NUL character. `CharPtr.deref` in src/CharPtr.ts returns `''` when the
character at the cursor is `'\0'`, so NUL acts as a soft terminator. -/
def nul : Char := Char.ofNat 0

/-- Character-class test for JavaScript whitespace (`\s` in regexes,
`String.prototype.trim`).  Restricted to the ASCII range, which covers every
character class the sources can feed it (the spec declares behavior on
non-ASCII whitespace undefined). -/
def isJsWs (c : Char) : Bool :=
  c = ' ' || c = '\t' || c = '\n' || c = Char.ofNat 11 || c = Char.ofNat 12 || c = '\r'

/-- `isSpace` from src/PkgConfig.ts (used by the module-list splitter):
space, `\n`, `\t`, `\f`, `\v` — note it does NOT include `\r`. -/
def isSpaceSrc (c : Char) : Bool :=
  c = ' ' || c = '\n' || c = '\t' || c = Char.ofNat 12 || c = Char.ofNat 11

/-- `isModuleSeparator` from src/PkgConfig.ts: comma or `isSpace`. -/
def isModuleSeparator (c : Char) : Bool :=
  c = ',' || isSpaceSrc c

/-- `isOperatorChar` from src/PkgConfig.ts. -/
def isOperatorChar (c : Char) : Bool :=
  c = '<' || c = '>' || c = '!' || c = '='

/-- `isDigit` from src/PkgConfig.ts (`'0' <= c && c <= '9'`; JS compares by
code unit, which for these characters is `Char.toNat`). -/
def isDigitSrc (c : Char) : Bool := 48 ≤ c.toNat && c.toNat ≤ 57

/-- `isAlpha` from src/PkgConfig.ts (`('a' <= c && c <= 'z') || ('A' <= c &&
c <= 'Z')` by code unit). -/
def isAlphaSrc (c : Char) : Bool :=
  (97 ≤ c.toNat && c.toNat ≤ 122) || (65 ≤ c.toNat && c.toNat ≤ 90)

/-- `isAlnum` from src/PkgConfig.ts. -/
def isAlnumSrc (c : Char) : Bool := isDigitSrc c || isAlphaSrc c

/-- JavaScript `String.prototype.trim` on a character list. -/
def jsTrimList (l : List Char) : List Char :=
  ((l.dropWhile isJsWs).reverse.dropWhile isJsWs).reverse

/-- JavaScript `String.prototype.trim`. -/
def jsTrim (s : String) : String := ⟨jsTrimList s.data⟩

/-- `t` is a suffix of `s` (JS `String.prototype.endsWith`). -/
def strEndsWith (s t : String) : Bool := t.data.isSuffixOf s.data

/-- `s` starts with `t` (on character lists). -/
def listStartsWith : List Char → List Char → Bool
  | _, [] => true
  | [], _ :: _ => false
  | c :: cs, d :: ds => c = d && listStartsWith cs ds

/-- `t` occurs inside `s` (JS `String.prototype.includes`). -/
def listContains (s t : List Char) : Bool :=
  match s with
  | [] => listStartsWith [] t
  | _ :: cs => listStartsWith s t || listContains cs t

/-- `t` occurs inside `s` (JS `String.prototype.includes`). -/
def strContains (s t : String) : Bool := listContains s.data t.data

/-- node `path.basename`: everything after the last `/`. -/
def pathBasename (p : String) : String :=
  ⟨(p.data.reverse.takeWhile (fun c => c ≠ '/')).reverse⟩

/-- node `path.dirname`: everything before the last `/`, or `"."` when there
is no separator. -/
def pathDirname (p : String) : String :=
  if p.data.contains '/' then
    ⟨(p.data.reverse.dropWhile (fun c => c ≠ '/')).reverse.dropLast⟩
  else "."

/-- node `path.join dir file` for the simple shapes the sources build
(`join(searchPath, name + '.pc')`). -/
def pathJoin (a b : String) : String := a ++ "/" ++ b

/-- JS string comparison `a < b`: lexicographic by code unit.  All characters
compared by the sources are ASCII alphanumerics, for which the code unit is
the code point `Char.toNat`. -/
def lexLt : List Char → List Char → Bool
  | [], [] => false
  | [], _ :: _ => true
  | _ :: _, [] => false
  | a :: as, b :: bs =>
    if a.toNat < b.toNat then true
    else if b.toNat < a.toNat then false
    else lexLt as bs

theorem lexLt_asymm : ∀ a b : List Char, lexLt a b = true → lexLt b a = false := by
  intro a
  induction a with
  | nil =>
    intro b _
    cases b <;> simp [lexLt]
  | cons x xs ih =>
    intro b h
    cases b with
    | nil => simp [lexLt] at h
    | cons y ys =>
      by_cases hxy : x.toNat < y.toNat
      · have : ¬ y.toNat < x.toNat := by omega
        simp [lexLt, hxy, this]
      · by_cases hyx : y.toNat < x.toNat
        · simp [lexLt, hxy, hyx] at h
        · simp [lexLt, hxy, hyx] at h ⊢
          exact ih ys h

/-- First character of a list, or NUL when empty (the value `CharPtr.deref`
yields at the end of a buffer). -/
def headOr (l : List Char) : Char :=
  match l with
  | [] => nul
  | c :: _ => c

theorem length_dropWhile_le' (p : Char → Bool) :
    ∀ l : List Char, (l.dropWhile p).length ≤ l.length := by
  intro l
  induction l with
  | nil => simp [List.dropWhile]
  | cons x xs ih =>
    by_cases hx : p x
    · simp only [List.dropWhile, hx]
      exact Nat.le_trans ih (by simp)
    · simp [List.dropWhile, hx]

theorem dropWhile_headOr_false {p : Char → Bool} :
    ∀ l : List Char, l.dropWhile p ≠ [] → p (headOr (l.dropWhile p)) = false := by
  intro l h
  induction l with
  | nil => simp [List.dropWhile] at h
  | cons x xs ih =>
    by_cases hx : p x
    · simp only [List.dropWhile, hx] at h ⊢
      exact ih h
    · simp only [List.dropWhile, hx] at h ⊢
      simp only [headOr]
      simpa using hx

theorem dropWhile_length_lt {p : Char → Bool} (l : List Char) (hl : l ≠ [])
    (hp : p (headOr l) = true) : (l.dropWhile p).length < l.length := by
  cases l with
  | nil => exact absurd rfl hl
  | cons x xs =>
    simp only [headOr] at hp
    simp only [List.dropWhile, hp]
    calc (xs.dropWhile p).length ≤ xs.length := length_dropWhile_le' p xs
    _ < (x :: xs).length := by simp

/-!
### VersionCompare (`rpmVerCmp`, src/PkgConfig.ts lines 986–1048)

The source walks two `CharPtr`s over shared mutable buffers, temporarily
writing a NUL at the end of the current alphabetic or numeric segment so that
`toString` yields exactly the segment, and restoring the overwritten
character before continuing with the rest.  The embedding below replaces that
NUL choreography by direct segment extraction with `takeWhile`/`dropWhile`:

* `while (one.deref() && !isAlnum(one.deref())) one.advance()` is
  `dropWhile (fun c => !isAlnumSrc c)`;
* the segment scanned by `while (str1.deref() && isDigit/isAlpha ...)`
  followed by `setChar('\0')` and `toString()` is `takeWhile pred`, and the
  position after restoring (`one.copyFrom(str1)`) is `dropWhile pred`;
* `if (two.ptrdiff(str2) === 0) return isNum ? 1 : -1` is the `seg2 = []`
  test (the commented-out `one.ptrdiff(str1) === 0` case cannot happen since
  the first list's head satisfies the predicate);
* stripping leading zeros `while (one.deref() === '0')` is
  `dropWhile (· = '0')` on the segment (the written NUL stops it at the
  segment end);
* an embedded NUL in either input string ends every loop of the source, so
  both inputs are truncated at their first NUL up front (after the `a === b`
  identity test, which uses the raw strings).

`rpmFinish` is the epilogue `if (!one.deref() && !two.deref()) return 0; ...`,
reached both when the `while` condition fails and via the inner `break`.
-/

/-- Epilogue of `rpmVerCmp`: whoever ran out of characters first is less. -/
def rpmFinish (one two : List Char) : Int :=
  if one = [] ∧ two = [] then 0
  else if one = [] then -1
  else 1

/-- Segment-class predicate of the current `rpmVerCmp` iteration: digits when
the first list starts with a digit, alphabetic characters otherwise. -/
def rpmPred (d : Bool) : Char → Bool :=
  fun c => if d then isDigitSrc c else isAlphaSrc c

theorem rpmPred_headOr (l : List Char)
    (hh : isAlnumSrc (headOr l) = true) :
    rpmPred (isDigitSrc (headOr l)) (headOr l) = true := by
  by_cases hd : isDigitSrc (headOr l) = true
  · simp [rpmPred, hd]
  · have hb : isDigitSrc (headOr l) = false := by simpa using hd
    have ha : isAlphaSrc (headOr l) = true := by
      simpa [isAlnumSrc, hb] using hh
    simp [rpmPred, hb, ha]

/-- Leading-zero stripping of a numeric segment
(`while (one.deref() === '0') one.advance()`); alphabetic segments are kept. -/
def rpmStrip (d : Bool) (seg : List Char) : List Char :=
  if d then seg.dropWhile (· = '0') else seg

/-- Numeric length comparison and lexical comparison of the current segment
pair, falling through to the continuation `k` (the next loop iteration) on a
tie.  `s1`/`s2` are the (zero-stripped when numeric) segments, `r1`/`r2` the
rests after the segments. -/
def rpmTail (k : List Char → List Char → Int) (s1 s2 : List Char) (d : Bool)
    (r1 r2 : List Char) : Int :=
  if d ∧ s2.length < s1.length then 1
  else if d ∧ s1.length < s2.length then -1
  else if lexLt s1 s2 then -1
  else if lexLt s2 s1 then 1
  else k r1 r2

/-- One segment comparison: `d` says whether the first list's segment is
numeric; an empty segment on the second list (`two.ptrdiff(str2) === 0`)
means the classes differ and the numeric side wins. -/
def rpmCmpSeg (k : List Char → List Char → Int) (one' two' : List Char)
    (d : Bool) : Int :=
  if two'.takeWhile (rpmPred d) = [] then (if d then 1 else -1)
  else
    rpmTail k (rpmStrip d (one'.takeWhile (rpmPred d)))
      (rpmStrip d (two'.takeWhile (rpmPred d))) d
      (one'.dropWhile (rpmPred d)) (two'.dropWhile (rpmPred d))

/-- Loop body after the non-alphanumeric skip: the inner `break` when either
side is exhausted, otherwise segment classification and comparison. -/
def rpmBody (k : List Char → List Char → Int) (one' two' : List Char) : Int :=
  if one' = [] ∨ two' = [] then rpmFinish one' two'
  else rpmCmpSeg k one' two' (isDigitSrc (headOr one'))

/-- Main loop of `rpmVerCmp` (see the section comment for the mapping from
the mutable-cursor source to this segment-functional form).  The source's
`while` loop is compiled with a fuel argument so the definition is
structural; every iteration that recurses removes at least one character
from `one`, so the fuel `one.length + two.length + 1` supplied by
`rpmVerCmp` makes the exhaustion branch unreachable, and the fuel amount is
symmetric under swapping the two strings. -/
def rpmLoopF : Nat → List Char → List Char → Int
  | 0, _, _ => 0
  | fuel + 1, one, two =>
    if one = [] ∨ two = [] then rpmFinish one two
    else
      rpmBody (fun x y => rpmLoopF fuel x y)
        (one.dropWhile (fun c => ! isAlnumSrc c))
        (two.dropWhile (fun c => ! isAlnumSrc c))

/-- `rpmVerCmp` from src/PkgConfig.ts: identity shortcut, then the segment
loop over the inputs truncated at their first embedded NUL.  The fuel is
symmetric in the two arguments and larger than the loop can ever need. -/
def rpmVerCmp (a b : String) : Int :=
  if a = b then 0
  else rpmLoopF (a.data.length + b.data.length + 1)
    (a.data.takeWhile (fun c => c ≠ nul)) (b.data.takeWhile (fun c => c ≠ nul))

theorem isAlphaSrc_of_alnum_not_digit {c : Char} (ha : isAlnumSrc c = true)
    (hd : isDigitSrc c = false) : isAlphaSrc c = true := by
  simpa [isAlnumSrc, hd] using ha

theorem isAlphaSrc_eq_false_of_digit {c : Char} (hd : isDigitSrc c = true) :
    isAlphaSrc c = false := by
  simp only [isDigitSrc, Bool.and_eq_true, decide_eq_true_eq] at hd
  simp only [isAlphaSrc, Bool.or_eq_false_iff, Bool.and_eq_false_iff,
    decide_eq_false_iff_not, Nat.not_le]
  omega

theorem takeWhile_eq_nil_of_headOr {p : Char → Bool} {l : List Char}
    (h : p (headOr l) = false) : l.takeWhile p = [] := by
  cases l with
  | nil => simp [List.takeWhile]
  | cons x xs =>
    simp only [headOr] at h
    simp [List.takeWhile, h]

theorem takeWhile_ne_nil_of_headOr {p : Char → Bool} {l : List Char}
    (hl : l ≠ []) (h : p (headOr l) = true) : l.takeWhile p ≠ [] := by
  cases l with
  | nil => exact absurd rfl hl
  | cons x xs =>
    simp only [headOr] at h
    simp [List.takeWhile, h]

theorem rpmFinish_swap (one two : List Char) (h : one = [] ∨ two = []) :
    rpmFinish two one = - rpmFinish one two := by
  cases one with
  | nil =>
    cases two with
    | nil => simp [rpmFinish]
    | cons y ys => simp [rpmFinish]
  | cons x xs =>
    cases two with
    | nil => simp [rpmFinish]
    | cons y ys => simp at h

theorem rpmTail_swap (k : List Char → List Char → Int)
    (hk : ∀ x y, k y x = - k x y) (s1 s2 : List Char) (d : Bool)
    (r1 r2 : List Char) : rpmTail k s2 s1 d r2 r1 = - rpmTail k s1 s2 d r1 r2 := by
  by_cases hab : lexLt s1 s2 = true
  · have hba := lexLt_asymm _ _ hab
    unfold rpmTail
    split_ifs <;> first | decide | omega | simp_all
  · by_cases hba : lexLt s2 s1 = true
    · have hab' := lexLt_asymm _ _ hba
      unfold rpmTail
      split_ifs <;> first | decide | omega
    · unfold rpmTail
      split_ifs <;> first | decide | omega | simp_all | exact hk r1 r2

theorem rpmCmpSeg_swap (k : List Char → List Char → Int)
    (hk : ∀ x y, k y x = - k x y) (one' two' : List Char) (d : Bool)
    (h1 : one'.takeWhile (rpmPred d) ≠ [])
    (h2 : two'.takeWhile (rpmPred d) ≠ []) :
    rpmCmpSeg k two' one' d = - rpmCmpSeg k one' two' d := by
  unfold rpmCmpSeg
  rw [if_neg h1, if_neg h2]
  exact rpmTail_swap k hk _ _ d _ _

theorem rpmBody_swap (k : List Char → List Char → Int)
    (hk : ∀ x y, k y x = - k x y) (one' two' : List Char)
    (ha1 : one' ≠ [] → isAlnumSrc (headOr one') = true)
    (ha2 : two' ≠ [] → isAlnumSrc (headOr two') = true) :
    rpmBody k two' one' = - rpmBody k one' two' := by
  unfold rpmBody
  by_cases he : one' = [] ∨ two' = []
  · rw [if_pos he.symm, if_pos he]
    exact rpmFinish_swap one' two' he
  · have hne1 : one' ≠ [] := fun h => he (Or.inl h)
    have hne2 : two' ≠ [] := fun h => he (Or.inr h)
    rw [if_neg (fun h : two' = [] ∨ one' = [] => he h.symm), if_neg he]
    by_cases hd : isDigitSrc (headOr one') = isDigitSrc (headOr two')
    · rw [← hd]
      have hp1 : rpmPred (isDigitSrc (headOr one')) (headOr one') = true := by
        by_cases h : isDigitSrc (headOr one') = true
        · simp [rpmPred, h]
        · have hb : isDigitSrc (headOr one') = false := by simpa using h
          simp [rpmPred, hb, isAlphaSrc_of_alnum_not_digit (ha1 hne1) hb]
      have hp2 : rpmPred (isDigitSrc (headOr one')) (headOr two') = true := by
        by_cases h : isDigitSrc (headOr one') = true
        · simp [rpmPred, h, ← hd, h.symm ▸ (hd ▸ h)]
        · have hb : isDigitSrc (headOr one') = false := by simpa using h
          have hb2 : isDigitSrc (headOr two') = false := hd ▸ hb
          simp [rpmPred, hb, isAlphaSrc_of_alnum_not_digit (ha2 hne2) hb2]
      exact rpmCmpSeg_swap k hk one' two' _
        (takeWhile_ne_nil_of_headOr hne1 hp1)
        (takeWhile_ne_nil_of_headOr hne2 hp2)
    · -- the two sides start segments of different classes
      by_cases h1d : isDigitSrc (headOr one') = true
      · have h2d : isDigitSrc (headOr two') = false := by
          cases hx : isDigitSrc (headOr two')
          · rfl
          · exact absurd (h1d.trans hx.symm) hd
        -- original: numeric vs alphabetic → 1; swapped: alphabetic vs numeric → -1
        have e1 : two'.takeWhile (rpmPred (isDigitSrc (headOr one'))) = [] := by
          apply takeWhile_eq_nil_of_headOr
          simp [rpmPred, h1d, h2d]
        have e2 : one'.takeWhile (rpmPred (isDigitSrc (headOr two'))) = [] := by
          apply takeWhile_eq_nil_of_headOr
          simp [rpmPred, h2d, isAlphaSrc_eq_false_of_digit h1d]
        unfold rpmCmpSeg
        rw [if_pos e1, if_pos e2, if_pos h1d, if_neg (by simp [h2d])]
      · have h1d' : isDigitSrc (headOr one') = false := by simpa using h1d
        have h2d : isDigitSrc (headOr two') = true := by
          cases hx : isDigitSrc (headOr two')
          · exact absurd (h1d'.trans hx.symm) (fun hh => hd hh)
          · rfl
        have e1 : two'.takeWhile (rpmPred (isDigitSrc (headOr one'))) = [] := by
          apply takeWhile_eq_nil_of_headOr
          simp [rpmPred, h1d', isAlphaSrc_eq_false_of_digit h2d]
        have e2 : one'.takeWhile (rpmPred (isDigitSrc (headOr two'))) = [] := by
          apply takeWhile_eq_nil_of_headOr
          simp [rpmPred, h2d, h1d']
        unfold rpmCmpSeg
        rw [if_pos e1, if_pos e2, if_pos h2d, if_neg (by simp [h1d'])]
        decide

theorem rpmLoopF_swap : ∀ (fuel : Nat) (one two : List Char),
    rpmLoopF fuel two one = - rpmLoopF fuel one two := by
  intro fuel
  induction fuel with
  | zero => intro one two; simp [rpmLoopF]
  | succ n ih =>
    intro one two
    simp only [rpmLoopF]
    by_cases he : one = [] ∨ two = []
    · rw [if_pos he.symm, if_pos he]
      exact rpmFinish_swap one two he
    · rw [if_neg (fun h : two = [] ∨ one = [] => he h.symm), if_neg he]
      apply rpmBody_swap _ ih
      · intro hne
        have h := dropWhile_headOr_false (p := fun c => ! isAlnumSrc c) one hne
        simpa using h
      · intro hne
        have h := dropWhile_headOr_false (p := fun c => ! isAlnumSrc c) two hne
        simpa using h

/-- `rpmVerCmp` swaps to its negation: the identity shortcut gives 0 both
ways, and the loop (run with the argument-symmetric fuel) is antisymmetric. -/
theorem rpmVerCmp_swap (a b : String) : rpmVerCmp b a = - rpmVerCmp a b := by
  unfold rpmVerCmp
  by_cases hab : a = b
  · simp [hab]
  · rw [if_neg hab, if_neg (fun h : b = a => hab h.symm)]
    rw [Nat.add_comm b.data.length a.data.length]
    exact rpmLoopF_swap _ _ _

/-- C7: for all strings `a` and `b`, `rpmVerCmp a b` and `rpmVerCmp b a` have
opposite signs (one is negative iff the other is positive, one is zero iff
the other is zero), and `rpmVerCmp a a = 0`. -/
theorem C7_rpmVerCmp_antisymm (a b : String) :
    (rpmVerCmp a b < 0 ↔ 0 < rpmVerCmp b a) ∧
    (rpmVerCmp a b = 0 ↔ rpmVerCmp b a = 0) ∧
    rpmVerCmp a a = 0 := by
  have hs := rpmVerCmp_swap a b
  refine ⟨by omega, by omega, by simp [rpmVerCmp]⟩

/-!
### ArgSplitter (`gShell.ts`)

The repository carries gShell in `gShell.ts`; the current revision (the
tab-indented file exporting both `gShellParseArgv` and `gShellUnquote`, which
the unit tests import and whose tokenizer-error propagation the compat tests
rely on) keeps the token list in a local `retval` and only assigns
`result.argv = retval` when tokenization succeeded.  The embedding follows
that revision.

`tokenizeCommandLine` walks one character per step.  The embedded state is
`(prev, currentQuote, quoted, currentToken, argv)` where `prev` is the
character before the cursor (`p.deref(-1)`; `none` at position 0) and
`currentToken : Option (List Char)` is the `Token` object (`none` = the token
does not exist).  The `#`-comment branch of the source consumes its whole run
in one outer-loop iteration: the inner `while` advances to the next `\n` (or
end), resets `currentQuote` to empty and `break`s at end of input, so the
per-character embedding keeps `quoted` unchanged while skipping comment
characters and treats end-of-input in comment state as plain end of input.
-/

/-- The `currentQuote` variable of `tokenizeCommandLine`: empty, `\\`, `#`,
`'` or `"`. -/
inductive CQuote where
  | noQ
  | bs
  | hash
  | sq
  | dq
deriving DecidableEq

/-- Return type of `gShellParseArgv`/`tokenizeCommandLine`
(`GParseArgvResult`). -/
structure GArgvResult where
  argv : List String
  error : Option String
deriving DecidableEq

/-- `Token.delimit`: push the token if it exists. -/
def delimitTok (tok : Option (List Char)) (acc : List (List Char)) : List (List Char) :=
  match tok with
  | none => acc
  | some t => acc ++ [t]

/-- `Token.append` (which also `ensure_token`s). -/
def tokAppend (tok : Option (List Char)) (s : List Char) : Option (List Char) :=
  some (tok.getD [] ++ s)

/-- `if (p.deref() !== '\\') quoted = false; else quoted = !quoted;` -/
def quoteUpd (c : Char) (quoted : Bool) : Bool :=
  if c = '\\' then !quoted else false

/-- End of tokenization: delimit the pending token, report a quote error or
the empty-input error, otherwise expose the tokens. -/
def tokFinish (cmdLine : List Char) (cq : CQuote) (tok : Option (List Char))
    (acc : List (List Char)) : GArgvResult :=
  let acc' := delimitTok tok acc
  match cq with
  | .bs =>
    { argv := [],
      error := some ("Text ended just after a '\\' character. (The text was '"
        ++ String.mk cmdLine ++ "')") }
  | .sq =>
    { argv := [],
      error := some ("Text ended before matching quote was found for '. (The text was '"
        ++ String.mk cmdLine ++ "')") }
  | .dq =>
    { argv := [],
      error := some ("Text ended before matching quote was found for \". (The text was '"
        ++ String.mk cmdLine ++ "')") }
  | _ =>
    -- `.hash` only reaches here at end of input, where the source has already
    -- reset `currentQuote` to empty before `break`ing.
    if acc'.length < 1 then
      { argv := [], error := some "Text was empty (or contained only whitespace)" }
    else { argv := acc'.map String.mk, error := none }

/-- Character-by-character embedding of the `while (p.deref())` loop of
`tokenizeCommandLine`. -/
def tokenizeLoop (cmdLine : List Char) : List Char → Option Char → CQuote → Bool →
    Option (List Char) → List (List Char) → GArgvResult
  | [], _, cq, _, tok, acc => tokFinish cmdLine cq tok acc
  | c :: rest, prev, cq, quoted, tok, acc =>
    if c = nul then tokFinish cmdLine (if cq = .hash then .noQ else cq) tok acc
    else
      match cq with
      | .bs =>
        let tok' := if c ≠ '\n' then tokAppend tok ['\\', c] else tok
        tokenizeLoop cmdLine rest (some c) .noQ (quoteUpd c quoted) tok' acc
      | .hash =>
        if c = '\n' then
          tokenizeLoop cmdLine rest (some c) .noQ false tok acc
        else
          tokenizeLoop cmdLine rest (some c) .hash quoted tok acc
      | .sq =>
        let cq' := if c = '\'' then CQuote.noQ else CQuote.sq
        tokenizeLoop cmdLine rest (some c) cq' (quoteUpd c quoted) (tokAppend tok [c]) acc
      | .dq =>
        let cq' := if c = '"' ∧ ¬ quoted then CQuote.noQ else CQuote.dq
        tokenizeLoop cmdLine rest (some c) cq' (quoteUpd c quoted) (tokAppend tok [c]) acc
      | .noQ =>
        if c = '\n' then
          tokenizeLoop cmdLine rest (some c) .noQ (quoteUpd c quoted) none (delimitTok tok acc)
        else if c = ' ' ∨ c = '\t' then
          match tok with
          | some t =>
            if t.length > 0 then
              tokenizeLoop cmdLine rest (some c) .noQ (quoteUpd c quoted) none (delimitTok (some t) acc)
            else
              tokenizeLoop cmdLine rest (some c) .noQ (quoteUpd c quoted) (some t) acc
          | none => tokenizeLoop cmdLine rest (some c) .noQ (quoteUpd c quoted) none acc
        else if c = '\'' then
          tokenizeLoop cmdLine rest (some c) .sq (quoteUpd c quoted) (tokAppend tok [c]) acc
        else if c = '"' then
          tokenizeLoop cmdLine rest (some c) .dq (quoteUpd c quoted) (tokAppend tok [c]) acc
        else if c = '\\' then
          tokenizeLoop cmdLine rest (some c) .bs (quoteUpd c quoted) tok acc
        else if c = '#' then
          match prev with
          | none => tokenizeLoop cmdLine rest (some c) .hash (quoteUpd c quoted) tok acc
          | some pc =>
            if pc = ' ' ∨ pc = '\n' ∨ pc = nul then
              tokenizeLoop cmdLine rest (some c) .hash (quoteUpd c quoted) tok acc
            else
              tokenizeLoop cmdLine rest (some c) .noQ (quoteUpd c quoted) (tokAppend tok [c]) acc
        else
          tokenizeLoop cmdLine rest (some c) .noQ (quoteUpd c quoted) (tokAppend tok [c]) acc

/-- `tokenizeCommandLine` from gShell.ts. -/
def tokenizeCommandLine (cmdLine : String) : GArgvResult :=
  tokenizeLoop cmdLine.data cmdLine.data none .noQ false none []

/-- Scanning mode of `gShellUnquote`: outside quotes, inside a `"..."`
segment (`unquote_string_inplace` with `quoteChar = '"'`), or inside a
`'...'` segment. -/
inductive UnqMode where
  | plain
  | inD
  | inS
deriving DecidableEq

/-- Error message of `unquoteStringInplace` for an unterminated quote. -/
def unmatchedQuoteMsg : String :=
  "Unmatched quotation mark in command line or other shell-quoted text"

/-- `gShellUnquote` from gShell.ts, with the in-place rewriting of
`unquoteStringInplace` replaced by an accumulator: the characters the source
writes through `dest` before the terminating NUL are exactly the characters
appended to `acc`, and `start = end` after a closed quote is the tail the
recursion continues on.  Every step consumes at least one character, so the
fuel `length + 1` supplied by `gShellUnquote` makes exhaustion (mapped to the
unmatched-quote error value) unreachable. -/
def unqLoop : Nat → UnqMode → List Char → List Char → Except String (List Char)
  | 0, _, _, _ => .error unmatchedQuoteMsg
  | _ + 1, .plain, [], acc => .ok acc
  | fuel + 1, .plain, c :: rest, acc =>
    if c = nul then .ok acc
    else if c = '"' then unqLoop fuel .inD rest acc
    else if c = '\'' then unqLoop fuel .inS rest acc
    else if c = '\\' then
      match rest with
      | [] => .ok acc
      | c2 :: rest2 =>
        if c2 = nul then .ok acc
        else if c2 = '\n' then unqLoop fuel .plain rest2 acc
        else unqLoop fuel .plain rest2 (acc ++ [c2])
    else unqLoop fuel .plain rest (acc ++ [c])
  | _ + 1, .inD, [], _ => .error unmatchedQuoteMsg
  | fuel + 1, .inD, c :: rest, acc =>
    if c = nul then .error unmatchedQuoteMsg
    else if c = '"' then unqLoop fuel .plain rest acc
    else if c = '\\' then
      match rest with
      | [] => .error unmatchedQuoteMsg
      | c2 :: rest2 =>
        if c2 = '"' ∨ c2 = '\\' ∨ c2 = '`' ∨ c2 = '$' ∨ c2 = '\n' then
          unqLoop fuel .inD rest2 (acc ++ [c2])
        else
          unqLoop fuel .inD (c2 :: rest2) (acc ++ ['\\'])
    else unqLoop fuel .inD rest (acc ++ [c])
  | _ + 1, .inS, [], _ => .error unmatchedQuoteMsg
  | fuel + 1, .inS, c :: rest, acc =>
    if c = nul then .error unmatchedQuoteMsg
    else if c = '\'' then unqLoop fuel .plain rest acc
    else unqLoop fuel .inS rest (acc ++ [c])

/-- `gShellUnquote` from gShell.ts. -/
def gShellUnquote (qString : String) : Except String String :=
  (unqLoop (qString.data.length + 1) .plain qString.data []).map String.mk

/-- Unquote every token in order; the first failure aborts with its message
and an empty argv. -/
def unquoteAll : List String → List String → GArgvResult
  | [], acc => { argv := acc, error := none }
  | t :: ts, acc =>
    match gShellUnquote t with
    | .error e => { argv := [], error := some e }
    | .ok r => unquoteAll ts (acc ++ [r])

/-- `gShellParseArgv` from gShell.ts. -/
def gShellParseArgv (cmdLine : String) : GArgvResult :=
  let tokenResult := tokenizeCommandLine cmdLine
  if tokenResult.argv.length < 1 then tokenResult
  else unquoteAll tokenResult.argv []

/-!
### VersionPredicate (`RequiredVersion`, `ComparisonType`) and module lists

`parseModuleList` (src/PkgConfig.ts lines 795–882) cuts each module string in
place with `p.setChar('\0')` and reads tokens back with `start.toString()`
(which stops at the first NUL).  The embedding threads the mutated buffer and
the cursor index through `loopAdv`, an exact compilation of the four loop
shapes `while (p.deref() && pred(p.deref())) { [p.setChar('\0');] p.advance() }`
with `CharPtr.deref`'s out-of-bounds check made explicit (`derefE`).  The
loops are given fuel `buf.length + 1`; each iteration moves the index forward
by one and the index can never pass the buffer length while fuel remains, so
exhaustion is impossible — it is nevertheless represented (as `charPtrBug`)
and proven unreachable together with the source's two assertion failures.
-/

/-- Errors of module-list parsing.  The first three are the documented parse
errors (rendered with the file path by `mlErrMsg`); `assertBug` is
`assertNotReached()` and `charPtrBug` is the `CharPtr` out-of-bounds error
(also used for loop-fuel exhaustion, which corresponds to a cursor running
past the end of the buffer). -/
inductive MLErr where
  | emptyName
  | unknownOp (op name : String)
  | opNoVersion (name : String)
  | assertBug
  | charPtrBug
deriving DecidableEq

/-- `ComparisonType` from src/PkgConfig.ts. -/
inductive ComparisonType where
  | lt
  | gt
  | le
  | ge
  | eq
  | ne
  | always
deriving DecidableEq

/-- The string value of each `ComparisonType` enum member. -/
def compToString : ComparisonType → String
  | .lt => "<"
  | .gt => ">"
  | .le => "<="
  | .ge => ">="
  | .eq => "="
  | .ne => "!="
  | .always => "(any)"

/-- `RequiredVersion` (name, comparison, version).  `version` is `none` when
the source leaves the field `undefined` (a module-list entry without a
version); the `owner` back-pointer is dropped — no embedded operation reads
it. -/
structure RequiredVersion where
  name : String
  comparison : ComparisonType
  version : Option String
deriving DecidableEq

/-- `RequiredVersion.toString`: a JS template literal renders an `undefined`
version as the text `undefined`. -/
def rvToString (rv : RequiredVersion) : String :=
  rv.name ++ " " ++ compToString rv.comparison ++ " " ++ rv.version.getD "undefined"

/-- `RequiredVersion.test`: compare against the predicate version
(`new CharPtr(undefined)` in `rpmVerCmp` behaves as the empty string). -/
def testRV (rv : RequiredVersion) (version : String) : Bool :=
  let rc := rpmVerCmp version (rv.version.getD "")
  match rv.comparison with
  | .lt => decide (rc < 0)
  | .gt => decide (rc > 0)
  | .le => decide (rc ≤ 0)
  | .ge => decide (rc ≥ 0)
  | .eq => decide (rc = 0)
  | .ne => decide (rc ≠ 0)
  | .always => true

/-- The operator-string table shared by `RequiredVersion.fromUserArg` and
`parseModuleList` (both switch over the same six spellings). -/
def parseCompOp (s : String) : Option ComparisonType :=
  if s = "=" then some .eq
  else if s = ">=" then some .ge
  else if s = "<=" then some .le
  else if s = ">" then some .gt
  else if s = "<" then some .lt
  else if s = "!=" then some .ne
  else none

/-- Split on runs of JS whitespace (`split(/\s+/)` on an already-trimmed
string, which produces no empty pieces). -/
def wordsAux : List Char → List Char → List String
  | [], cur => if cur.isEmpty then [] else [String.mk cur.reverse]
  | c :: rest, cur =>
    if isJsWs c then
      if cur.isEmpty then wordsAux rest []
      else String.mk cur.reverse :: wordsAux rest []
    else wordsAux rest (c :: cur)

/-- `RequiredVersion.fromUserArg` (the `typeof` guard is outside the
embedding: its argument is always a string).  `''.split(/\s+/)` is `['']`. -/
def fromUserArg (arg : String) : Except String RequiredVersion :=
  let parseErrMsg := fun (msg : String) =>
    "Error parsing package requirement from '" ++ arg ++ "': " ++ msg
  let t := jsTrim arg
  let pieces := if t.data.isEmpty then [""] else wordsAux t.data []
  match pieces with
  | [] => .error (parseErrMsg "No package name found")
  | p0 :: restP =>
    if p0 = "" then .error (parseErrMsg "No package name found")
    else
      match restP with
      | [] => .ok { name := p0, comparison := .always, version := some "" }
      | op :: restP2 =>
        match parseCompOp op with
        | none => .error (parseErrMsg ("Invalid comparison operator '" ++ op ++ "'"))
        | some cmp =>
          match restP2 with
          | [v] => .ok { name := p0, comparison := cmp, version := some v }
          | _ =>
            .error (parseErrMsg
              ("Expected format <name> [<op> <version>] but given string has "
                ++ toString pieces.length ++ " tokens"))

/-- `CharPtr.deref` at index `i` of `buf`: out of bounds beyond
`buf.length` is the CharPtr bug error; at the length, or at an embedded NUL,
the empty result `none`. -/
def derefE (buf : List Char) (i : Nat) : Except MLErr (Option Char) :=
  if i > buf.length then .error .charPtrBug
  else
    match buf.get? i with
    | some c => if c = nul then .ok none else .ok (some c)
    | none => .ok none

/-- `while (p.deref() && pred(p.deref())) { [p.setChar('\0');] p.advance() }`:
returns the (possibly NUL-overwritten) buffer and the stop index. -/
def loopAdv (write : Bool) (pred : Char → Bool) :
    Nat → List Char → Nat → Except MLErr (List Char × Nat)
  | 0, _, _ => .error .charPtrBug
  | fuel + 1, buf, i =>
    match derefE buf i with
    | .error e => .error e
    | .ok none => .ok (buf, i)
    | .ok (some c) =>
      if pred c then
        loopAdv write pred fuel (if write then buf.set i nul else buf) (i + 1)
      else .ok (buf, i)

/-- `CharPtr.toString` from index `i`: characters up to the next NUL or the
end of the buffer. -/
def toStrAt (buf : List Char) (i : Nat) : String :=
  String.mk ((buf.drop i).takeWhile (fun c => c ≠ nul))

/-- The per-module body of `parseModuleList`: skip separators, cut out the
name, the optional operator token and the optional version token (NUL-ing the
separators in between), with the source's error checks in source order and
the final `if (!ver.name) assertNotReached()`. -/
def parseOneModule (modStr : String) : Except MLErr RequiredVersion :=
  match loopAdv false isModuleSeparator (modStr.data.length + 1) modStr.data 0 with
  | .error e => .error e
  | .ok (buf1, start1) =>
    match loopAdv false (fun c => ! isSpaceSrc c) (modStr.data.length + 1) buf1 start1 with
    | .error e => .error e
    | .ok (buf2, p2) =>
      match loopAdv true isModuleSeparator (modStr.data.length + 1) buf2 p2 with
      | .error e => .error e
      | .ok (buf3, p3) =>
        match derefE buf3 start1 with
        | .error e => .error e
        | .ok s1 =>
          if s1 = none then .error MLErr.emptyName
          else
            match loopAdv false (fun c => ! isSpaceSrc c) (modStr.data.length + 1) buf3 p3 with
            | .error e => .error e
            | .ok (buf4, p4) =>
              match loopAdv true isSpaceSrc (modStr.data.length + 1) buf4 p4 with
              | .error e => .error e
              | .ok (buf5, p5) =>
                match derefE buf5 p3 with
                | .error e => .error e
                | .ok s2 =>
                  match (match s2 with
                         | none => Except.ok ComparisonType.always
                         | some _ =>
                           match parseCompOp (toStrAt buf5 p3) with
                           | some cmpv => Except.ok cmpv
                           | none =>
                             Except.error
                               (MLErr.unknownOp (toStrAt buf5 p3) (toStrAt buf3 start1))) with
                  | .error e => .error e
                  | .ok comparison =>
                    match loopAdv false (fun c => ! isModuleSeparator c)
                        (modStr.data.length + 1) buf5 p5 with
                    | .error e => .error e
                    | .ok (buf6, p6) =>
                      match loopAdv true isModuleSeparator (modStr.data.length + 1) buf6 p6 with
                      | .error e => .error e
                      | .ok (buf7, _p7) =>
                        match derefE buf7 p5 with
                        | .error e => .error e
                        | .ok s3 =>
                          if comparison ≠ ComparisonType.always ∧ s3 = none then
                            .error (MLErr.opNoVersion (toStrAt buf3 start1))
                          else
                            if toStrAt buf3 start1 = "" then .error MLErr.assertBug
                            else
                              .ok { name := toStrAt buf3 start1,
                                    comparison := comparison,
                                    version := if s3 = none then none
                                               else some (toStrAt buf7 p5) }

/-- State of `splitModuleList`'s character-class machine. -/
inductive MSState where
  | outside
  | inName
  | beforeOp
  | inOp
  | afterOp
  | inVersion
deriving DecidableEq

/-- The lookahead in the `IN_MODULE_NAME` case: duplicate the cursor, skip
spaces, and test whether an operator character follows.  The lookahead starts
at the current character, so it is applied to `c :: rest`. -/
def msLookaheadOp (suffix : List Char) : Bool :=
  match (suffix.dropWhile (fun c => c ≠ nul && isSpaceSrc c)).head? with
  | some c => if c = nul then false else isOperatorChar c
  | none => false

/-- One transition of `splitModuleList`'s state machine for the character
`c`; `rest` is the input after `c` (used by the lookahead).  The `default:
assertNotReached()` of the source switch is unrepresentable here because the
match on the state is total; the reachable assertion is the one in the
`BEFORE_OPERATOR` case. -/
def msStep (state : MSState) (c : Char) (rest : List Char) : Except MLErr MSState :=
  match state with
  | .outside => .ok (if ! isModuleSeparator c then .inName else .outside)
  | .inName =>
    if isSpaceSrc c then
      .ok (if msLookaheadOp (c :: rest) then .beforeOp else .outside)
    else if isModuleSeparator c then .ok .outside
    else .ok .inName
  | .beforeOp =>
    if isOperatorChar c then .ok .inOp
    else if ! isSpaceSrc c then .error MLErr.assertBug
    else .ok .beforeOp
  | .inOp => .ok (if ! isOperatorChar c then .afterOp else .inOp)
  | .afterOp => .ok (if ! isSpaceSrc c then .inVersion else .afterOp)
  | .inVersion => .ok (if isModuleSeparator c then .outside else .inVersion)

/-- The walk of `splitModuleList`.  `curAcc` holds the characters consumed
since `start` (the source pushes `start.slice(p.ptrdiff(start))`, and none of
the consumed characters is a NUL, so the slice is exactly `curAcc`).  The
source's `lastState` always equals the state at the beginning of the current
iteration, so the boundary test compares the new state with the incoming
one.  On a boundary the new accumulation starts with the current character
(`start = p.dup()` happens before `p.advance()`). -/
def splitLoop : List Char → MSState → List Char → List (List Char) →
    Except MLErr (List (List Char))
  | [], _, curAcc, acc => .ok (if curAcc.isEmpty then acc else acc ++ [curAcc])
  | c :: rest, state, curAcc, acc =>
    if c = nul then .ok (if curAcc.isEmpty then acc else acc ++ [curAcc])
    else
      match msStep state c rest with
      | .error e => .error e
      | .ok state' =>
        if state' = .outside ∧ state ≠ .outside then
          splitLoop rest state' [c] (acc ++ [curAcc])
        else
          splitLoop rest state' (curAcc ++ [c]) acc

/-- `splitModuleList` from src/PkgConfig.ts. -/
def splitModuleListE (str : String) : Except MLErr (List String) :=
  (splitLoop str.data .outside [] []).map (fun ms => ms.map String.mk)

/-- The `for (const module of split)` loop of `parseModuleList`. -/
def parseMods : List String → Except MLErr (List RequiredVersion)
  | [] => .ok []
  | m :: ms =>
    match parseOneModule m with
    | .error e => .error e
    | .ok r =>
      match parseMods ms with
      | .error e => .error e
      | .ok rs => .ok (r :: rs)

/-- `parseModuleList` from src/PkgConfig.ts, before message rendering. -/
def parseModuleListE (str : String) : Except MLErr (List RequiredVersion) :=
  match splitModuleListE str with
  | .error e => .error e
  | .ok split => parseMods split

/-- Messages of the module-list errors, as thrown by the source with the
file path interpolated. -/
def mlErrMsg (path : String) : MLErr → String
  | .emptyName => "Empty package name in Requires or Conflicts in file '" ++ path ++ "'"
  | .unknownOp op name =>
    "Unknown version comparison operator '" ++ op ++ "' after package name '"
      ++ name ++ "' in file '" ++ path ++ "'"
  | .opNoVersion name =>
    "Comparison operator but no version after package name '" ++ name
      ++ "' in file '" ++ path ++ "'"
  | .assertBug => "PkgConfig is in an unexpected state. Please file a bug."
  | .charPtrBug => "This is a bug with espkg-config. CharPtr offset out of bounds"

/-- `parseModuleList` with rendered error messages, as used by the package
parser. -/
def parseModuleListS (str path : String) : Except String (List RequiredVersion) :=
  match parseModuleListE str with
  | .ok l => .ok l
  | .error e => .error (mlErrMsg path e)

/-!
### PackageParser: variable substitution, flag classification, fields
-/

/-- Association-list lookup, first match wins (`Map.get`). -/
def lookupAssoc {α : Type} : List (String × α) → String → Option α
  | [], _ => none
  | (k', v) :: rest, k => if k' = k then some v else lookupAssoc rest k

/-- `Map.set`: replace in place (keeping the entry's position, as JS `Map`
iteration order does) or append a new entry at the end. -/
def setAssoc {α : Type} : List (String × α) → String → α → List (String × α)
  | [], k, v => [(k, v)]
  | (k', v') :: rest, k, v =>
    if k' = k then (k, v) :: rest else (k', v') :: setAssoc rest k v

/-- Message of the `CharPtr.deref` bounds check. -/
def charPtrBugMsg : String :=
  "This is a bug with espkg-config. CharPtr offset out of bounds"

/-- Scanning mode of `trimAndSub`'s loop: plain copying, or inside a
`${...}` reference accumulating the variable name. -/
inductive TasMode where
  | norm
  | scan (varAcc : List Char)

/-- `Package.getVar`: `GlobalState.getVar` always yields null (nothing in
the sources ever writes a global variable), so `varval || this.vars.get(...)`
is the package-local lookup. -/
def getVarF (vars : List (String × String)) (name : String) : Option String :=
  lookupAssoc vars name

/-- The `while (p.deref())` loop of `trimAndSub` (src/PkgConfig.ts lines
607–640).  `$$` emits `$`; `${` enters scan mode; the scan ends at `}` or at
an embedded NUL (both consumed by the unconditional `p.advance()`).  When the
scan instead runs off the end of the string, the source still advances the
cursor, so after a successful variable lookup the next `p.deref()` sits at
`length + 1` and throws the CharPtr bounds error — an undefined variable
throws its own error first.  Both outcomes are modelled in the
`(.scan _, [])` case.  Every step consumes at least one character, so the
fuel `length + 1` (exhaustion mapped to the same CharPtr bug value) is never
spent. -/
def tasLoop (vars : List (String × String)) (path : String) :
    Nat → List Char → TasMode → List Char → Except String (List Char)
  | 0, _, _, _ => .error charPtrBugMsg
  | _ + 1, [], .norm, acc => .ok acc
  | _ + 1, [], .scan varAcc, _ =>
    match getVarF vars (String.mk varAcc) with
    | none =>
      .error ("Variable '" ++ String.mk varAcc ++ "' not defined in '" ++ path ++ "'")
    | some _ => .error charPtrBugMsg
  | fuel + 1, c :: rest, .norm, acc =>
    if c = nul then .ok acc
    else if c = '$' then
      match rest with
      | [] => tasLoop vars path fuel [] .norm (acc ++ [c])
      | c2 :: rest2 =>
        if c2 = '$' then tasLoop vars path fuel rest2 .norm (acc ++ ['$'])
        else if c2 = '{' then tasLoop vars path fuel rest2 (.scan []) acc
        else tasLoop vars path fuel (c2 :: rest2) .norm (acc ++ [c])
    else tasLoop vars path fuel rest .norm (acc ++ [c])
  | fuel + 1, c :: rest, .scan varAcc, acc =>
    if c = nul ∨ c = '}' then
      match getVarF vars (String.mk varAcc) with
      | none =>
        .error ("Variable '" ++ String.mk varAcc ++ "' not defined in '" ++ path ++ "'")
      | some v => tasLoop vars path fuel rest .norm (acc ++ v.data)
    else tasLoop vars path fuel rest (.scan (varAcc ++ [c])) acc

/-- `Package.trimAndSub`. -/
def trimAndSub (vars : List (String × String)) (path str : String) :
    Except String String :=
  (tasLoop vars path ((jsTrim str).data.length + 1) (jsTrim str).data .norm []).map String.mk

/-- `FlagType.CFLAGS_I`. -/
def CFLAGS_I : Nat := 1

/-- `FlagType.CFLAGS_OTHER`. -/
def CFLAGS_OTHER : Nat := 2

/-- `FlagType.LIBS_L`. -/
def LIBS_L : Nat := 4

/-- `FlagType.LIBS_l`. -/
def LIBS_l : Nat := 8

/-- `FlagType.LIBS_OTHER`. -/
def LIBS_OTHER : Nat := 16

/-- `Flag`: a bitmask type and the argument tokens. -/
structure Flag where
  type : Nat
  args : List String
deriving DecidableEq

/-- `Flag.hasType`: bitwise intersection test. -/
def flagHasType (f : Flag) (mask : Nat) : Bool := f.type.land mask != 0

/-- `Flag.equals`: same type and the same argument sequence (the source
compares the lengths and then each element). -/
def flagEquals (a b : Flag) : Bool := a.type == b.type && a.args == b.args

/-- `s` starts with `t` (JS `String.prototype.startsWith`). -/
def strStartsWithS (s t : String) : Bool := listStartsWith s.data t.data

/-- Test of `/^-I\s*(.*)$/`: the token starts with `-I`, and — because `.`
matches neither `\n` nor `\r` while `$` may sit before one final `\n` — after
setting aside an optional final `\n`, every character up to and including
the last line terminator must be `\s` whitespace. -/
def cflagsIMatches (arg : String) : Bool :=
  match arg.data with
  | '-' :: 'I' :: rest =>
    let r := if rest ≠ [] ∧ rest.getLast? = some '\n' then rest.dropLast else rest
    ((r.reverse.dropWhile (fun c => !(c = '\n' ∨ c = '\r'))).reverse).all isJsWs
  | _ => false

/-- The classification loop of `Package.parseCflags`: `-I...` tokens and
`-idirafter`/`-isystem` with a successor are CflagsI (the successor is taken
untrimmed), any other nonempty trimmed token is CflagsOther, empty tokens
are dropped. -/
def doParseCflagsF : Nat → List String → List Flag
  | 0, _ => []
  | _ + 1, [] => []
  | fuel + 1, a0 :: rest =>
    let arg := jsTrim a0
    if cflagsIMatches arg then
      { type := CFLAGS_I, args := [arg] } :: doParseCflagsF fuel rest
    else if (arg = "-idirafter" ∨ arg = "-isystem") ∧ rest ≠ [] then
      match rest with
      | next :: rest2 =>
        { type := CFLAGS_I, args := [arg, next] } :: doParseCflagsF fuel rest2
      | [] => []
    else if arg ≠ "" then
      { type := CFLAGS_OTHER, args := [arg] } :: doParseCflagsF fuel rest
    else doParseCflagsF fuel rest

/-- The classification loop over the split Cflags tokens (fuel: one unit per
token suffices since each step consumes one or two tokens). -/
def doParseCflags (argv : List String) : List Flag :=
  doParseCflagsF (argv.length + 1) argv

/-- `Package.doParseLibs`: `-l...` (but not `-lib:...`) is LibsSmallL,
`-L...` is LibsL, `-framework`/`-Wl,-framework` with a successor is a
two-token LibsOther (successor trimmed), other nonempty tokens LibsOther. -/
def doParseLibsF : Nat → List String → List Flag
  | 0, _ => []
  | _ + 1, [] => []
  | fuel + 1, a0 :: rest =>
    let arg := jsTrim a0
    if strStartsWithS arg "-l" ∧ ¬ strStartsWithS arg "-lib:" then
      { type := LIBS_l, args := [arg] } :: doParseLibsF fuel rest
    else if strStartsWithS arg "-L" then
      { type := LIBS_L, args := [arg] } :: doParseLibsF fuel rest
    else if (arg = "-framework" ∨ arg = "-Wl,-framework") ∧ rest ≠ [] then
      match rest with
      | next :: rest2 =>
        { type := LIBS_OTHER, args := [arg, jsTrim next] } :: doParseLibsF fuel rest2
      | [] => []
    else if arg ≠ "" then
      { type := LIBS_OTHER, args := [arg] } :: doParseLibsF fuel rest
    else doParseLibsF fuel rest

/-- The classification loop over the split Libs tokens. -/
def doParseLibs (argv : List String) : List Flag :=
  doParseLibsF (argv.length + 1) argv

/-- `Package`, with object references (`requires`, `requiresPrivate`)
embedded as indices into the global store, mirroring the aliasing of the
mutable objects. -/
structure PkgData where
  key : String
  uninstalled : Bool := false
  pcFile : Option String := none
  vars : List (String × String) := []
  cflags : List Flag := []
  libs : List Flag := []
  privateLibs : List Flag := []
  hasLibs : Bool := false
  hasPrivateLibs : Bool := false
  pathPosition : Nat := 0
  name : Option String := none
  version : Option String := none
  description : Option String := none
  requiresEntries : List RequiredVersion := []
  requiresPrivateEntries : List RequiredVersion := []
  conflicts : List RequiredVersion := []
  requiredVersions : List (String × RequiredVersion) := []
  requires : List Nat := []
  requiresPrivate : List Nat := []
  url : Option String := none
deriving DecidableEq

/-- `Package.parseLibs`: duplicate check on `hasLibs`, substitution, early
return on an empty value, shell split, classification; the public flags are
also appended to `privateLibs`. -/
def parseLibsF (p : PkgData) (str path : String) : Except String PkgData :=
  if p.hasLibs then
    .error ("Libs field occurs multiple times in '" ++ path ++ "'")
  else
    match trimAndSub p.vars path str with
    | .error e => .error e
    | .ok trimmed =>
      if trimmed = "" then .ok { p with hasLibs := true }
      else
        match (gShellParseArgv trimmed).error with
        | some e =>
          .error ("Couldn't parse Libs field into an argument vector: " ++ e)
        | none =>
          .ok { p with hasLibs := true,
                       libs := doParseLibs (gShellParseArgv trimmed).argv,
                       privateLibs := p.privateLibs
                         ++ doParseLibs (gShellParseArgv trimmed).argv }

/-- `Package.parseLibsPrivate`. -/
def parseLibsPrivateF (p : PkgData) (str path : String) : Except String PkgData :=
  if p.hasPrivateLibs then
    .error ("Libs.private field occurs multiple times in '" ++ path ++ "'")
  else
    match trimAndSub p.vars path str with
    | .error e => .error e
    | .ok trimmed =>
      if trimmed = "" then .ok { p with hasPrivateLibs := true }
      else
        match (gShellParseArgv trimmed).error with
        | some e =>
          .error ("Couldn't parse Libs.private field into an argument vector: " ++ e)
        | none =>
          .ok { p with hasPrivateLibs := true,
                       privateLibs := p.privateLibs
                         ++ doParseLibs (gShellParseArgv trimmed).argv }

/-- `Package.parseCflags`: the duplicate check is on a nonempty parsed list;
a split error is only fatal when the substituted value is nonempty. -/
def parseCflagsF (p : PkgData) (str path : String) : Except String PkgData :=
  if p.cflags.length > 0 then
    .error ("Cflags field occurs more than once in '" ++ path ++ "'")
  else
    match trimAndSub p.vars path str with
    | .error e => .error e
    | .ok trimmed =>
      match (gShellParseArgv trimmed).error with
      | some e =>
        if trimmed ≠ "" then
          .error ("Couldn't parse Cflags field into an argument vector: " ++ e)
        else .ok { p with cflags := doParseCflags (gShellParseArgv trimmed).argv }
      | none => .ok { p with cflags := doParseCflags (gShellParseArgv trimmed).argv }

/-- `Package.parseRequires`: overrides any previously parsed entries (the
reference checks the still-unresolved `requires` list, so duplicates never
error — preserved upstream bug). -/
def parseRequiresF (p : PkgData) (str path : String) : Except String PkgData :=
  match trimAndSub p.vars path str with
  | .error e => .error e
  | .ok trimmed =>
    match parseModuleListS trimmed path with
    | .error e => .error e
    | .ok entries => .ok { p with requiresEntries := entries }

/-- `Package.parseRequiresPrivate` (same override behavior). -/
def parseRequiresPrivateF (p : PkgData) (str path : String) : Except String PkgData :=
  match trimAndSub p.vars path str with
  | .error e => .error e
  | .ok trimmed =>
    match parseModuleListS trimmed path with
    | .error e => .error e
    | .ok entries => .ok { p with requiresPrivateEntries := entries }

/-- `Package.parseConflicts`: the duplicate check is on a nonempty parsed
conflicts list, so a first occurrence that parsed to the empty module list
does not make a later occurrence fail. -/
def parseConflictsF (p : PkgData) (str path : String) : Except String PkgData :=
  if p.conflicts.length > 0 then
    .error ("Conflicts field occurs multiple times in '" ++ path ++ "'")
  else
    match trimAndSub p.vars path str with
    | .error e => .error e
    | .ok trimmed =>
      match parseModuleListS trimmed path with
      | .error e => .error e
      | .ok cf => .ok { p with conflicts := cf }

/-- Character class of the tag (`[A-Za-z0-9_.]`). -/
def isTagChar (c : Char) : Bool := isAlnumSrc c || c = '_' || c = '.'

/-- Match of `/^([A-Za-z0-9_.]+)\s*([:=])\s*(.*)$/` on the trimmed line: a
maximal nonempty tag run, optional whitespace, `:` or `=`, optional
whitespace, and a rest that may not contain a line terminator (`.` matches
neither `\n` — which a logical line never contains — nor `\r`, which can
survive mid-line; such lines do not match and are skipped). -/
def tagLineMatch (str : String) : Option (String × Char × String) :=
  let l := str.data
  let tag := l.takeWhile isTagChar
  if tag.isEmpty then none
  else
    match (l.dropWhile isTagChar).dropWhile isJsWs with
    | op :: r3 =>
      if op = ':' ∨ op = '=' then
        let rest := r3.dropWhile isJsWs
        if rest.contains '\r' then none
        else some (String.mk tag, op, String.mk rest)
      else none
    | [] => none

/-- The inline `Name` case of `parseLine`. -/
def parseNameF (p : PkgData) (rest path : String) : Except String PkgData :=
  if p.name.isSome then
    .error ("Name field occurs multiple times in '" ++ path ++ "'")
  else
    match trimAndSub p.vars path rest with
    | .error e => .error e
    | .ok v => .ok { p with name := some v }

/-- The inline `Version` case of `parseLine`. -/
def parseVersionF (p : PkgData) (rest path : String) : Except String PkgData :=
  if p.version.isSome then
    .error ("Version field occurs multiple times in '" ++ path ++ "'")
  else
    match trimAndSub p.vars path rest with
    | .error e => .error e
    | .ok v => .ok { p with version := some v }

/-- The inline `Description` case of `parseLine`. -/
def parseDescriptionF (p : PkgData) (rest path : String) : Except String PkgData :=
  if p.description.isSome then
    .error ("Description field occurs multiple times in '" ++ path ++ "'")
  else
    match trimAndSub p.vars path rest with
    | .error e => .error e
    | .ok v => .ok { p with description := some v }

/-- The inline `URL` case of `parseLine`. -/
def parseUrlF (p : PkgData) (rest path : String) : Except String PkgData :=
  if p.url.isSome then
    .error ("URL field occurs multiple times in '" ++ path ++ "'")
  else
    match trimAndSub p.vars path rest with
    | .error e => .error e
    | .ok v => .ok { p with url := some v }

/-- The variable-assignment (`=`) case of `parseLine`. -/
def parseVarLineF (p : PkgData) (tag rest path : String) : Except String PkgData :=
  if (lookupAssoc p.vars tag).isSome then
    .error ("Duplicate definition of variable '" ++ tag ++ "' in '" ++ path ++ "'")
  else
    match trimAndSub p.vars path rest with
    | .error e => .error e
    | .ok v => .ok { p with vars := setAssoc p.vars tag v }

/-- `Package.parseLine`: trim, match the field pattern (silently skipping
non-matching lines), then dispatch on the tag for `:` fields or define a
variable for `=`. -/
def parseLineF (p : PkgData) (untrimmed path : String) (ignorePrivateReqs : Bool) :
    Except String PkgData :=
  match tagLineMatch (jsTrim untrimmed) with
  | none => .ok p
  | some (tag, op, rest) =>
    if op = ':' then
      if tag = "Name" then parseNameF p rest path
      else if tag = "Version" then parseVersionF p rest path
      else if tag = "Description" then parseDescriptionF p rest path
      else if tag = "Requires.private" then
        if ignorePrivateReqs then .ok p else parseRequiresPrivateF p rest path
      else if tag = "Requires" then parseRequiresF p rest path
      else if tag = "Libs.private" then parseLibsPrivateF p rest path
      else if tag = "Libs" then parseLibsF p rest path
      else if tag = "Cflags" ∨ tag = "CFlags" then parseCflagsF p rest path
      else if tag = "Conflicts" then parseConflictsF p rest path
      else if tag = "URL" then parseUrlF p rest path
      else .ok p
    else parseVarLineF p tag rest path

/-!
### LineReader (`readOneLine`, src/PkgConfig.ts lines 687–755)

The `FileStream` of files.ts is a character list; `getc` takes the head and
`ungetc` pushes the very character back, so a get-then-unget pair leaves the
stream where it was.  `readOneLine` consumes at least one character whenever
the stream is nonempty, which bounds the number of logical lines by the
length of the contents (the fuel `readLines` supplies).
-/

/-- One logical line: returns the line and the remaining stream.  The
`quoted`/`comment` flags and the newline pairing (including the preserved
upstream CRLF asymmetry between quoted and unquoted mode) follow the source
case by case.  Every step consumes at least one character, so the fuel
`stream length + 1` supplied by the caller is never exhausted. -/
def readOneLineF : Nat → Bool → Bool → List Char → List Char →
    List Char × List Char
  | 0, _, _, line, s => (line, s)
  | fuel + 1, quoted, comment, line, s =>
    match s with
    | [] => (if quoted then line ++ ['\\'] else line, [])
    | c :: rest =>
      if quoted then
        if c = '#' then readOneLineF fuel false comment (line ++ ['#']) rest
        else if c = '\r' ∨ c = '\n' then
          match rest with
          | [] => readOneLineF fuel false comment line []
          | n :: rest2 =>
            if (c = '\r' ∧ n = '\n') ∨ (c = '\n' ∧ n = '\r') then
              readOneLineF fuel false comment line rest2
            else readOneLineF fuel false comment line (n :: rest2)
        else readOneLineF fuel false comment (line ++ ['\\', c]) rest
      else
        if c = '#' then readOneLineF fuel false true line rest
        else if c = '\\' then readOneLineF fuel (!comment) comment line rest
        else if c = '\n' then
          match rest with
          | [] => (line, [])
          | n :: rest2 => if n = '\r' then (line, rest2) else (line, n :: rest2)
        else readOneLineF fuel false comment (if comment then line else line ++ [c]) rest

/-- `while (!file.eof()) { readOneLine(file); ... }`. -/
def readLinesF : Nat → List Char → List (List Char)
  | 0, _ => []
  | _ + 1, [] => []
  | fuel + 1, c :: rest =>
    let r := readOneLineF (rest.length + 2) false false [] (c :: rest)
    r.1 :: readLinesF fuel r.2

/-- All logical lines of a file's contents. -/
def readLines (content : String) : List (List Char) :=
  readLinesF (content.data.length + 1) content.data

/-- Feed every logical line to `parseLine`. -/
def parsePkgLines (path : String) (ignorePrivateReqs : Bool) :
    PkgData → List (List Char) → Except String PkgData
  | p, [] => .ok p
  | p, l :: ls =>
    match parseLineF p (String.mk l) path ignorePrivateReqs with
    | .error e => .error e
    | .ok p' => parsePkgLines path ignorePrivateReqs p' ls

/-- `PkgConfig.parsePackageFile`, given the file's contents: a fresh package
with `pcFile` and the `pcfiledir` variable, then the line loop. -/
def parsePackageFileM (key path content : String) (ignorePrivateReqs : Bool) :
    Except String PkgData :=
  let p0 : PkgData :=
    { key := key, pcFile := some path, vars := [("pcfiledir", pathDirname path)] }
  parsePkgLines path ignorePrivateReqs p0 (readLines content)

/-!
### Resolver and flag merger (`PkgConfig`, `GlobalState`, `recursiveFillList`)

The mutable object graph is embedded as an arena: `GState.store` is the list
of all `Package` objects ever constructed (a package's index is its
identity), and `GState.cache` is the `GlobalState.packages` map from cache
key to index.  `Package.requires`/`requiresPrivate` hold indices, so the
aliasing of the source (a cache overwrite does not change what earlier
`requires.push(req)` captured, and later mutations of a referenced package
are visible through the reference) is preserved exactly.

`getPackage` is recursive through dependency resolution; the embedding
decrements a fuel value at every call and yields `none` (distinct from every
thrown error) when fuel runs out, so nontermination of the source appears as
`∀ fuel, result = none`.

The file system is an association list from path to file contents;
`isRegularFile` is membership, and reading a missing file (possible only for
an explicit-filename module, which skips the existence check) throws the
node ENOENT error.
-/

/-- The result record of the three public queries. -/
structure PkgResult where
  flags : List String
  files : List String
deriving DecidableEq

/-- `GlobalState` plus the arena of all constructed packages. -/
structure GState where
  store : List PkgData
  cache : List (String × Nat)
  ignorePrivateReqs : Bool
deriving DecidableEq

/-- The synthetic `pkg-config` package pre-populated in every cache. -/
def pkgConfigPkg : PkgData :=
  { key := "pkg-config", name := some "pkg-config", version := some "0.29.2",
    description := some "pkg-config is a system for managing compile/link flags for libraries",
    url := some "http://pkg-config.freedesktop.org/" }

/-- A fresh `GlobalState` (`libs` sets `ignorePrivateReqs`). -/
def initGState (ignorePrivateReqs : Bool) : GState :=
  { store := [pkgConfigPkg], cache := [("pkg-config", 0)],
    ignorePrivateReqs := ignorePrivateReqs }

/-- `GlobalState.loadedFiles`: iterate the cache map in insertion order and
collect the `pcFile` of every entry that has one (the synthetic package has
none). -/
def loadedFilesOf (store : List PkgData) : List (String × Nat) → List String
  | [] => []
  | (_, id) :: rest =>
    match (store.get? id).bind PkgData.pcFile with
    | some f => f :: loadedFilesOf store rest
    | none => loadedFilesOf store rest

/-- `GlobalState.loadedFiles`. -/
def loadedFiles (st : GState) : List String := loadedFilesOf st.store st.cache

/-- Mutate the package object at index `id` (the arena form of a property
assignment on a referenced `Package`). -/
def updateStorePkg (st : GState) (id : Nat) (f : PkgData → PkgData) : GState :=
  { st with store :=
      match st.store.get? id with
      | some p => st.store.set id (f p)
      | none => st.store }

/-- The loop over `reqs` (reversed) inside `recursiveFillList`, parameterized
by the recursive call.  A dangling index cannot occur: every stored id comes
from `cachePackage`/`push` of a constructed package. -/
def rflChildren
    (recur : PkgData → List String → List PkgData → Option (List String × List PkgData))
    (store : List PkgData) :
    List Nat → List String → List PkgData → Option (List String × List PkgData)
  | [], visited, expanded => some (visited, expanded)
  | cid :: rest, visited, expanded =>
    match store.get? cid with
    | none => rflChildren recur store rest visited expanded
    | some child =>
      match recur child visited expanded with
      | none => none
      | some (v', e') => rflChildren recur store rest v' e'

/-- `recursiveFillList` (src/PkgConfig.ts lines 1180–1196): skip if visited,
mark visited, recurse into the (reversed) requires list, then `unshift` the
package onto `expanded`.  Structural fuel: each recursive call is made with
one unit less, and a call that does work adds a fresh key to `visited`, so
any fuel exceeding the number of distinct keys in the store suffices
(`rflFuel_enough` below). -/
def rflFuel (store : List PkgData) :
    Nat → PkgData → Bool → List String → List PkgData →
    Option (List String × List PkgData)
  | 0, _, _, _, _ => none
  | fuel + 1, pkg, includePrivate, visited, expanded =>
    if visited.contains pkg.key then some (visited, expanded)
    else
      match rflChildren (fun p v e => rflFuel store fuel p includePrivate v e)
          store (if includePrivate then pkg.requiresPrivate
                 else pkg.requires).reverse (pkg.key :: visited) expanded with
      | none => none
      | some (v', e') => some (v', pkg :: e')

/-- The `for (let i = packages.length - 1; i >= 0; --i) recursiveFillList(...)`
loop of `getMultiMerged`; the caller passes the package list already
reversed. -/
def rflRoots (store : List PkgData) (fuel : Nat) (includePrivate : Bool) :
    List Nat → List String → List PkgData → Option (List String × List PkgData)
  | [], v, e => some (v, e)
  | id :: rest, v, e =>
    match store.get? id with
    | none => rflRoots store fuel includePrivate rest v e
    | some pkg =>
      match rflFuel store fuel pkg includePrivate v e with
      | none => none
      | some (v', e') => rflRoots store fuel includePrivate rest v' e'

/-- Stable ascending insertion by `pathPosition`: the embedding of
`expanded.sort((a, b) => a.pathPosition - b.pathPosition)` (JS `Array.sort`
is specified stable; insertion keeps an element after already-placed equal
keys). -/
def pkgInsert (x : PkgData) : List PkgData → List PkgData
  | [] => [x]
  | y :: ys => if y.pathPosition < x.pathPosition then y :: pkgInsert x ys else x :: y :: ys

/-- Stable sort by `pathPosition` ascending. -/
def sortByPathPos : List PkgData → List PkgData
  | [] => []
  | x :: xs => pkgInsert x (sortByPathPos xs)

/-- The inner flag loop of `getMultiMerged` for a single package:
`flag_list_strip_duplicates` pushes a matching flag unless it equals the
last pushed one.  `accRev` is the emitted list in reverse (its head is the
last pushed flag). -/
def emitPkgFlags (flagType : Nat) : List Flag → List Flag → List Flag
  | [], accRev => accRev
  | f :: fs, accRev =>
    if flagHasType f flagType then
      match accRev with
      | [] => emitPkgFlags flagType fs [f]
      | last :: _ =>
        if flagEquals f last then emitPkgFlags flagType fs accRev
        else emitPkgFlags flagType fs (f :: accRev)
    else emitPkgFlags flagType fs accRev

/-- The outer package loop of `getMultiMerged`'s selection/dedup phase. -/
def emitFlags (keySel : PkgData → List Flag) (flagType : Nat) :
    List PkgData → List Flag → List Flag
  | [], accRev => accRev.reverse
  | pkg :: rest, accRev =>
    emitFlags keySel flagType rest (emitPkgFlags flagType (keySel pkg) accRev)

/-- `PkgConfig.getMultiMerged`, stopping before the final flattening:
expansion (with fuel `store.length + 1`, which exceeds the number of distinct
keys), optional stable path sort, then selection with consecutive-duplicate
removal. -/
def getMultiMergedFlags (store : List PkgData) (ids : List Nat)
    (keySel : PkgData → List Flag) (flagType : Nat)
    (inPathOrder includePrivate : Bool) : Except String (List Flag) :=
  match rflRoots store (store.length + 1) includePrivate ids.reverse [] [] with
  | none =>
    .error "recursiveFillList ran out of fuel (unreachable: visited grows within the finite key set)"
  | some (_, expanded) =>
    let expanded2 := if inPathOrder then sortByPathPos expanded else expanded
    .ok (emitFlags keySel flagType expanded2 [])

/-- The final flattening of `getMultiMerged`: concatenate each flag's
`args`. -/
def flagsToArgs : List Flag → List String
  | [] => []
  | f :: fs => f.args ++ flagsToArgs fs

/-- The two `getMultiMerged` passes of `PkgConfig.cflags`: CflagsOther
unsorted, then CflagsI in path order, both including private requires. -/
def cflagsFlagList (store : List PkgData) (ids : List Nat) : Except String (List Flag) :=
  match getMultiMergedFlags store ids PkgData.cflags CFLAGS_OTHER false true with
  | .error e => .error e
  | .ok l1 =>
    match getMultiMergedFlags store ids PkgData.cflags CFLAGS_I true true with
    | .error e => .error e
    | .ok l2 => .ok (l1 ++ l2)

/-- The two passes of `PkgConfig.libs`: LibsL in path order, then
LibsOther ∪ LibsSmallL, public requires only. -/
def libsFlagList (store : List PkgData) (ids : List Nat) : Except String (List Flag) :=
  match getMultiMergedFlags store ids PkgData.libs LIBS_L true false with
  | .error e => .error e
  | .ok l1 =>
    match getMultiMergedFlags store ids PkgData.libs (LIBS_OTHER.lor LIBS_l) false false with
    | .error e => .error e
    | .ok l2 => .ok (l1 ++ l2)

/-- The two passes of `PkgConfig.staticLibs`: like `libs` but over
`privateLibs` and including private requires. -/
def staticLibsFlagList (store : List PkgData) (ids : List Nat) : Except String (List Flag) :=
  match getMultiMergedFlags store ids PkgData.privateLibs LIBS_L true true with
  | .error e => .error e
  | .ok l1 =>
    match getMultiMergedFlags store ids PkgData.privateLibs (LIBS_OTHER.lor LIBS_l) false true with
    | .error e => .error e
    | .ok l2 => .ok (l1 ++ l2)

/-- The `for (const req of this.requiresPrivate)` loop of `Package.verify`:
check the recorded predicate (looked up by the *resolved* package's key, so a
dependency requested under a different spelling — e.g. a filename — is never
checked) against the dependency's version.  A JS template literal renders an
`undefined` version as `undefined`; `RequiredVersion.test` feeds it to
`rpmVerCmp` as the empty string. -/
def verifyReqVersions (store : List PkgData) (p : PkgData) :
    List Nat → Except String Unit
  | [] => .ok ()
  | rid :: rest =>
    match store.get? rid with
    | none => verifyReqVersions store p rest
    | some req =>
      match lookupAssoc p.requiredVersions req.key with
      | none => verifyReqVersions store p rest
      | some ver =>
        if testRV ver (req.version.getD "") then verifyReqVersions store p rest
        else
          .error ("Package '" ++ p.key ++ "' requires '" ++ rvToString ver
            ++ "' but version of " ++ req.key ++ " is " ++ req.version.getD "undefined"
            ++ (match req.url with
                | some u =>
                  "\nYou may find new versions of " ++ req.name.getD "undefined" ++ " at " ++ u
                | none => ""))

/-- The inner conflicts loop of `Package.verify` for one transitive
dependency. -/
def findConflictErr (p : PkgData) (req : PkgData) :
    List RequiredVersion → Option String
  | [] => none
  | ver :: rest =>
    if ver.name = req.key ∧ testRV ver (req.version.getD "") then
      some ("Version '" ++ req.version.getD "undefined" ++ "' of " ++ req.key
        ++ " creates a conflict. (" ++ rvToString ver ++ " conflicts with "
        ++ p.key ++ " '" ++ p.version.getD "undefined" ++ "')")
    else findConflictErr p req rest

/-- The outer conflicts loop of `Package.verify` over the transitive
requires. -/
def checkConflicts (p : PkgData) : List PkgData → Except String Unit
  | [] => .ok ()
  | req :: rest =>
    match findConflictErr p req p.conflicts with
    | some e => .error e
    | none => checkConflicts p rest

/-- `Package.verify`: mandatory Name/Version/Description, the declared
version predicates of resolved requires, then conflicts against the
transitive closure of `requiresPrivate` (which includes the package
itself). -/
def verifyPkg (store : List PkgData) (id : Nat) : Except String Unit :=
  match store.get? id with
  | none => .ok ()
  | some p =>
    if p.name.isNone then .error ("Package '" ++ p.key ++ "' has no Name: field")
    else if p.version.isNone then .error ("Package '" ++ p.key ++ "' has no Version: field")
    else if p.description.isNone then
      .error ("Package '" ++ p.key ++ "' has no Description: field")
    else
      match verifyReqVersions store p p.requiresPrivate with
      | .error e => .error e
      | .ok _ =>
        match rflFuel store (store.length + 1) p true [] [] with
        | none =>
          .error "recursiveFillList ran out of fuel (unreachable: visited grows within the finite key set)"
        | some (_, transitiveRequires) => checkConflicts p transitiveRequires

/-- The search-path walk of `getPackage`: `pathPosition` is incremented
before each probe, so the found package records the 1-based index of its
directory. -/
def searchWalk (fs : List (String × String)) (name : String) :
    List String → Nat → Option (String × Nat)
  | [], _ => none
  | dir :: rest, pos =>
    let path := pathJoin dir (name ++ ".pc")
    if (lookupAssoc fs path).isSome then some (path, pos + 1)
    else searchWalk fs name rest (pos + 1)

/-- The dependency-resolution loops of `getPackage`, parameterized by the
recursive loader `gp` (the caller passes `getPackage` at one fuel less).
For each entry: a missing dependency throws; otherwise record the predicate
in `requiredVersions` and push the resolved reference onto `requires`
(`priv = false`) or `requiresPrivate` (`priv = true`) of the package object
at `id`. -/
def resolveDeps
    (gp : String → Bool → GState → Option (Except String (Option Nat × GState)))
    (selfKey : String) (id : Nat) (priv : Bool) :
    List RequiredVersion → GState → Option (Except String GState)
  | [], st => some (.ok st)
  | ver :: rest, st =>
    match gp ver.name false st with
    | none => none
    | some (.error e) => some (.error e)
    | some (.ok (none, _)) =>
      some (.error ("Package '" ++ ver.name ++ "', required by '" ++ selfKey
        ++ "', not found"))
    | some (.ok (some rid, st')) =>
      resolveDeps gp selfKey id priv rest (updateStorePkg st' id (fun p =>
        { p with
            requiredVersions := setAssoc p.requiredVersions ver.name ver,
            requires := if priv then p.requires else p.requires ++ [rid],
            requiresPrivate :=
              if priv then p.requiresPrivate ++ [rid] else p.requiresPrivate }))

/-- The tail of `getPackage` once a location is fixed: read the file (an
explicit filename was never existence-checked, so a missing file surfaces
the node I/O error), parse it, flag `uninstalled`, set `pathPosition`, cache
under `key`, resolve public and private requires, append the public requires
to `requiresPrivate`, and verify. -/
def contLoad
    (gp : String → Bool → GState → Option (Except String (Option Nat × GState)))
    (fs : List (String × String)) (key location : String) (pathPos : Nat)
    (st : GState) : Option (Except String (Option Nat × GState)) :=
  match lookupAssoc fs location with
  | none =>
    some (.error ("ENOENT: no such file or directory, open '" ++ location ++ "'"))
  | some content =>
    match parsePackageFileM key location content st.ignorePrivateReqs with
    | .error e => some (.error e)
    | .ok pkg0 =>
      let pkg1 := { pkg0 with
        uninstalled := if strContains location "uninstalled.pc" then true else pkg0.uninstalled,
        pathPosition := pathPos }
      let id := st.store.length
      let st1 : GState :=
        { st with store := st.store ++ [pkg1], cache := setAssoc st.cache key id }
      match resolveDeps gp key id false pkg1.requiresEntries st1 with
      | none => none
      | some (.error e) => some (.error e)
      | some (.ok st2) =>
        match resolveDeps gp key id true pkg1.requiresPrivateEntries st2 with
        | none => none
        | some (.error e) => some (.error e)
        | some (.ok st3) =>
          let st4 := updateStorePkg st3 id
            (fun p => { p with requiresPrivate := p.requiresPrivate ++ p.requires })
          match verifyPkg st4.store id with
          | .error e => some (.error e)
          | .ok _ => some (.ok (some id, st4))

/-- `PkgConfig.getPackage`: cache lookup under the literal requested name; an
explicit `.pc` filename is taken as the location with the basename (minus
`.pc`) as the cache key and path position 0; otherwise the `-uninstalled`
variant is probed first (`disableUninstalled` is declared but never set in
the source, so only the suffix check guards the probe) and then the search
path is walked.  `none` is fuel exhaustion, i.e. divergence of the source. -/
def getPackage (fs : List (String × String)) (sp : List String) :
    Nat → String → Bool → GState → Option (Except String (Option Nat × GState))
  | 0, _, _, _ => none
  | fuel + 1, name, mustExist, st =>
    match lookupAssoc st.cache name with
    | some id => some (.ok (some id, st))
    | none =>
      if strEndsWith name ".pc" then
        let bname := pathBasename name
        contLoad (fun n m s => getPackage fs sp fuel n m s) fs
          (String.mk (bname.data.take (bname.data.length - 3))) name 0 st
      else
        match (if ¬ strEndsWith name "-uninstalled" then
                 getPackage fs sp fuel (name ++ "-uninstalled") false st
               else some (.ok (none, st))) with
        | none => none
        | some (.error e) => some (.error e)
        | some (.ok (some id, st')) => some (.ok (some id, st'))
        | some (.ok (none, st')) =>
          match searchWalk fs name sp 0 with
          | some (path, pos) =>
            contLoad (fun n m s => getPackage fs sp fuel n m s) fs name path pos st'
          | none =>
            if mustExist then
              some (.error ("Package \"" ++ name ++ "\" was not found in the PkgConfig searchPath"))
            else some (.ok (none, st'))

/-- `moduleList.map((m) => RequiredVersion.fromUserArg(m))`: all user
arguments are parsed before any package is loaded. -/
def parseUserReqs : List String → Except String (List RequiredVersion)
  | [] => .ok []
  | m :: ms =>
    match fromUserArg m with
    | .error e => .error e
    | .ok r =>
      match parseUserReqs ms with
      | .error e => .error e
      | .ok rs => .ok (r :: rs)

/-- The loading loop of `PkgConfig.loadPackages`: resolve each requested
package (`mustExist`, so a null return is impossible — reading `.version` of
null would be a TypeError) and check the user predicate against its
version. -/
def loadReqs (fs : List (String × String)) (sp : List String) (fuel : Nat) :
    List RequiredVersion → GState → List Nat →
    Option (Except String (List Nat × GState))
  | [], st, acc => some (.ok (acc, st))
  | req :: rest, st, acc =>
    match getPackage fs sp fuel req.name true st with
    | none => none
    | some (.error e) => some (.error e)
    | some (.ok (none, _)) =>
      some (.error "TypeError: Cannot read properties of null (reading 'version')")
    | some (.ok (some id, st')) =>
      match st'.store.get? id with
      | none =>
        some (.error "TypeError: Cannot read properties of null (reading 'version')")
      | some pkg =>
        if testRV req (pkg.version.getD "") then
          loadReqs fs sp fuel rest st' (acc ++ [id])
        else
          some (.error ("Requested '" ++ rvToString req ++ "' but version of "
            ++ pkg.name.getD "undefined" ++ " is " ++ pkg.version.getD "undefined"))

/-- `PkgConfig.cflags`. -/
def cflagsQ (fs : List (String × String)) (sp : List String) (fuel : Nat)
    (moduleList : List String) : Option (Except String PkgResult) :=
  match parseUserReqs moduleList with
  | .error e => some (.error e)
  | .ok reqs =>
    match loadReqs fs sp fuel reqs (initGState false) [] with
    | none => none
    | some (.error e) => some (.error e)
    | some (.ok (ids, st)) =>
      match cflagsFlagList st.store ids with
      | .error e => some (.error e)
      | .ok fl => some (.ok { flags := flagsToArgs fl, files := loadedFiles st })

/-- `PkgConfig.libs` (a fresh state with `ignorePrivateReqs`). -/
def libsQ (fs : List (String × String)) (sp : List String) (fuel : Nat)
    (moduleList : List String) : Option (Except String PkgResult) :=
  match parseUserReqs moduleList with
  | .error e => some (.error e)
  | .ok reqs =>
    match loadReqs fs sp fuel reqs (initGState true) [] with
    | none => none
    | some (.error e) => some (.error e)
    | some (.ok (ids, st)) =>
      match libsFlagList st.store ids with
      | .error e => some (.error e)
      | .ok fl => some (.ok { flags := flagsToArgs fl, files := loadedFiles st })

/-- `PkgConfig.staticLibs`. -/
def staticLibsQ (fs : List (String × String)) (sp : List String) (fuel : Nat)
    (moduleList : List String) : Option (Except String PkgResult) :=
  match parseUserReqs moduleList with
  | .error e => some (.error e)
  | .ok reqs =>
    match loadReqs fs sp fuel reqs (initGState false) [] with
    | none => none
    | some (.error e) => some (.error e)
    | some (.ok (ids, st)) =>
      match staticLibsFlagList st.store ids with
      | .error e => some (.error e)
      | .ok fl => some (.ok { flags := flagsToArgs fl, files := loadedFiles st })

/-!
### Concrete query scenarios

The fixtures mirror the repository's test layout: three search directories
`test`, `test/d1`, `test/d2`, with minimal otherwise-valid `.pc` files
(`Name`, `Version`, `Description` plus the fields under test).
-/

/-- The search path used by the compat scenarios. -/
def spT : List String := ["test", "test/d1", "test/d2"]

/-- `mod1.pc` in `test/d1` and `mod2.pc` in `test/d2` with the Cflags of the
path-ordering scenario. -/
def fsMods : List (String × String) :=
  [("test/d1/mod1.pc",
    "Name: mod1\nVersion: 1\nDescription: mod1\nCflags: --other1 --another1 -Iinclude/d1 -isystem s1\n"),
   ("test/d2/mod2.pc",
    "Name: mod2\nVersion: 1\nDescription: mod2\nCflags: --other2 --another2 -Iinclude/d2 -isystem s2\n")]

/-- C1: with `mod1.pc` in search directory `test/d1` (Cflags `--other1
--another1 -Iinclude/d1 -isystem s1`) and `mod2.pc` in `test/d2`, the query
`cflags(["mod2","mod1"])` returns exactly the CflagsOther tokens in request
order followed by the CflagsI flags stably sorted ascending by the owning
package's `pathPosition` (`mod1` was found at position 2, `mod2` at
position 3). -/
theorem C1_cflags_path_ordering :
    cflagsQ fsMods spT 10 ["mod2", "mod1"] =
      some (.ok { flags := ["--other2", "--another2", "--other1", "--another1",
                            "-Iinclude/d1", "-isystem", "s1",
                            "-Iinclude/d2", "-isystem", "s2"],
                  files := ["test/d2/mod2.pc", "test/d1/mod1.pc"] }) := by
  decide

/-- `overloaded.pc` both at the search root and in a subdirectory, with
distinguishable Cflags. -/
def fsOverloaded : List (String × String) :=
  [("test/overloaded.pc",
    "Name: o\nVersion: 1\nDescription: d\nCflags: --default-flags\n"),
   ("test/subdir/overloaded.pc",
    "Name: o\nVersion: 1\nDescription: d\nCflags: --subdir-flags\n")]

/-- C3: requesting the same module once by plain name and once by an explicit
`.pc` filename with the same basename returns, in either order, the flags of
the filename-loaded package: the filename load overwrites the cache entry
under the shared basename key, and the merger deduplicates by key so the
last-cached package wins. -/
theorem C3_filename_overwrites_cache :
    (Option.map (Except.map PkgResult.flags)
      (cflagsQ fsOverloaded spT 10 ["overloaded", "test/subdir/overloaded.pc"]) =
      some (.ok ["--subdir-flags"])) ∧
    (Option.map (Except.map PkgResult.flags)
      (cflagsQ fsOverloaded spT 10 ["test/subdir/overloaded.pc", "overloaded"]) =
      some (.ok ["--subdir-flags"])) := by
  constructor
  · decide
  · decide

/-- `cflags-i-other.pc` whose Cflags field body is written exactly as claim
C5 states it (the `-I  include/dir` run unquoted). -/
def fsIOtherLiteral : List (String × String) :=
  [("test/cflags-i-other.pc",
    "Name: x\nVersion: 1\nDescription: d\nCflags: -isystem isystem/option -idirafter idirafter/option -I  include/dir --other\n")]

/-- The flag list claim C5 expects. -/
def c5ClaimedFlags : List String :=
  ["--other", "-I  include/dir", "-isystem", "isystem/option",
   "-idirafter", "idirafter/option"]

set_option maxHeartbeats 2000000 in
/-- C5 counterexample: with the Cflags field body exactly as the claim
states it, the shell splitter cuts `-I  include/dir` into the two tokens
`-I` and `include/dir`, so `cflags(["cflags-i-other"])` returns
`["include/dir","--other","-isystem","isystem/option","-idirafter",
"idirafter/option","-I"]`, not the claimed list. -/
theorem C5_counterexample :
    Option.map (Except.map PkgResult.flags)
        (cflagsQ fsIOtherLiteral spT 10 ["cflags-i-other"]) =
      some (.ok ["include/dir", "--other", "-isystem", "isystem/option",
                 "-idirafter", "idirafter/option", "-I"]) ∧
    ["include/dir", "--other", "-isystem", "isystem/option",
     "-idirafter", "idirafter/option", "-I"] ≠ c5ClaimedFlags := by
  constructor
  · decide
  · decide

/-- `cflags-i-other.pc` with the `-I  include/dir` token quoted (so the
splitter keeps it whole) and placed first, as the expected output
requires. -/
def fsIOtherQuoted : List (String × String) :=
  [("test/cflags-i-other.pc",
    "Name: x\nVersion: 1\nDescription: d\nCflags: \"-I  include/dir\" -isystem isystem/option -idirafter idirafter/option --other\n")]

set_option maxHeartbeats 2000000 in
/-- C5 amended: for a package file whose Cflags field holds the tokens
`"-I  include/dir"` (quoted, so the embedded spaces survive the shell
split), `-isystem isystem/option`, `-idirafter idirafter/option`, `--other`,
the query `cflags(["cflags-i-other"])` returns exactly
`["--other","-I  include/dir","-isystem","isystem/option","-idirafter",
"idirafter/option"]`. -/
theorem C5_amended_quoted_include :
    Option.map (Except.map PkgResult.flags)
        (cflagsQ fsIOtherQuoted spT 10 ["cflags-i-other"]) =
      some (.ok c5ClaimedFlags) := by
  decide

/-- C6 counterexample: the query `cflags(["pkg-config"])` resolves the
synthetic `pkg-config` package from the cache, yet the returned `files`
sequence is empty — `loadedFiles` only collects entries with a `pcFile`, and
the synthetic package has none — contradicting the claim that `files`
includes an entry for the synthetic package. -/
theorem C6_counterexample :
    cflagsQ [] spT 10 ["pkg-config"] = some (.ok { flags := [], files := [] }) := by
  decide

/-- A package that depends on the synthetic `pkg-config` package. -/
def fsDepPkgConfig : List (String × String) :=
  [("test/dep.pc",
    "Name: dep\nVersion: 1\nDescription: d\nRequires: pkg-config\nCflags: -DDEP\n")]

/-- C6 amended: `files` holds the distinct `pcFile` paths of every loaded
package that has one; the synthetic `pkg-config` package has no `pcFile` and
contributes no entry even when the query's resolution references it. -/
theorem C6_amended_files_skip_synthetic :
    cflagsQ fsDepPkgConfig spT 10 ["dep"] =
      some (.ok { flags := ["-DDEP"], files := ["test/dep.pc"] }) := by
  decide

/-!
### Claim C9: termination of loading

The claim is refuted by a package that requires itself by explicit `.pc`
filename: `getPackage` caches the package under the basename-derived key
(`a`) before resolving its requires, but the recursive lookup uses the
literal requires entry (`dir/a.pc`), which never hits the cache, so the
load recurses forever.  With plain-name cycles the pre-insertion does make
loading terminate.
-/

/-- A package requiring itself by explicit filename. -/
def fsDiv : List (String × String) :=
  [("dir/a.pc", "Name: a\nVersion: 1\nDescription: d\nRequires: dir/a.pc\n")]

/-- The parse of `dir/a.pc` from `fsDiv`, extracted so concrete facts about
it can be decided. -/
def divParsed : PkgData :=
  match parsePackageFileM "a" "dir/a.pc"
      "Name: a\nVersion: 1\nDescription: d\nRequires: dir/a.pc\n" false with
  | .ok p => p
  | .error _ => { key := "" }

/-- Setting one key of an association list leaves lookups of other keys
unchanged. -/
theorem lookupAssoc_setAssoc_ne {α : Type} (m : List (String × α)) (k k' : String)
    (v : α) (h : ¬ k = k') :
    lookupAssoc (setAssoc m k v) k' = lookupAssoc m k' := by
  induction m with
  | nil => simp [setAssoc, lookupAssoc, h]
  | cons kv rest ih =>
    obtain ⟨k1, v1⟩ := kv
    by_cases hk : k1 = k
    · subst hk
      simp [setAssoc, lookupAssoc, h]
    · simp [setAssoc, lookupAssoc, hk, ih]

/-- If resolving the first requires entry runs out of fuel, so does the whole
`resolveDeps` loop. -/
theorem resolveDeps_cons_none
    (gp : String → Bool → GState → Option (Except String (Option Nat × GState)))
    (selfKey : String) (id : Nat) (priv : Bool) (ver : RequiredVersion)
    (rest : List RequiredVersion) (st : GState)
    (h : gp ver.name false st = none) :
    resolveDeps gp selfKey id priv (ver :: rest) st = none := by
  unfold resolveDeps
  rw [h]

/-- Loading `dir/a.pc` from `fsDiv` exhausts any amount of fuel whenever the
state's cache has no entry under the literal name `dir/a.pc` (the load caches
under `a`, so each recursive step re-enters with the invariant intact). -/
theorem getPackage_fsDiv_none (fuel : Nat) : ∀ (st : GState) (m : Bool),
    lookupAssoc st.cache "dir/a.pc" = none → st.ignorePrivateReqs = false →
    getPackage fsDiv spT fuel "dir/a.pc" m st = none := by
  induction fuel with
  | zero => intro st m h1 h2; rfl
  | succ fuel ih =>
    intro st m h1 h2
    simp only [getPackage, h1]
    show contLoad (fun n mm s => getPackage fsDiv spT fuel n mm s) fsDiv
      "a" "dir/a.pc" 0 st = none
    simp only [contLoad, h2]
    have hfs : lookupAssoc fsDiv "dir/a.pc"
        = some "Name: a\nVersion: 1\nDescription: d\nRequires: dir/a.pc\n" := by decide
    have hP : parsePackageFileM "a" "dir/a.pc"
        "Name: a\nVersion: 1\nDescription: d\nRequires: dir/a.pc\n" false
        = .ok divParsed := by decide
    have hReq : divParsed.requiresEntries
        = [{ name := "dir/a.pc", comparison := ComparisonType.always,
             version := none }] := by decide
    simp only [hfs, hP, hReq]
    rw [resolveDeps_cons_none]
    show getPackage fsDiv spT fuel "dir/a.pc" false _ = none
    apply ih
    · show lookupAssoc (setAssoc st.cache "a" st.store.length) "dir/a.pc" = none
      rw [lookupAssoc_setAssoc_ne]
      · exact h1
      · decide
    · rfl

/-- If resolving the first user request runs out of fuel, so does the whole
`loadPackages` loop. -/
theorem loadReqs_cons_none (fs : List (String × String)) (sp : List String)
    (fuel : Nat) (req : RequiredVersion) (rest : List RequiredVersion)
    (st : GState) (acc : List Nat)
    (h : getPackage fs sp fuel req.name true st = none) :
    loadReqs fs sp fuel (req :: rest) st acc = none := by
  unfold loadReqs
  rw [h]

/-- Divergence of a `cflags` query: no amount of fuel suffices, i.e. the
source recursion never returns. -/
def cflagsDiverges (fs : List (String × String)) (sp : List String)
    (names : List String) : Prop :=
  ∀ fuel, cflagsQ fs sp fuel names = none

/-- The full `cflags(["dir/a.pc"])` query over `fsDiv` exhausts any fuel. -/
theorem cflagsQ_fsDiv_none (fuel : Nat) :
    cflagsQ fsDiv spT fuel ["dir/a.pc"] = none := by
  have hu : parseUserReqs ["dir/a.pc"]
      = .ok [{ name := "dir/a.pc", comparison := ComparisonType.always,
               version := some "" }] := by decide
  have hg := getPackage_fsDiv_none fuel (initGState false) true (by decide) rfl
  simp only [cflagsQ, hu]
  rw [loadReqs_cons_none]
  exact hg

/-- C9 counterexample: loading does not terminate on every cyclic dependency
graph — with `dir/a.pc` containing `Requires: dir/a.pc`, the query
`cflags(["dir/a.pc"])` diverges: the package is cached under the
basename-derived key `a` before its requires are resolved, but the recursive
lookup key is the literal entry `dir/a.pc`, which never hits the cache. -/
theorem C9_counterexample : cflagsDiverges fsDiv spT ["dir/a.pc"] :=
  fun fuel => cflagsQ_fsDiv_none fuel

/-- A plain-name dependency cycle: `a` requires `b` and itself, `b` privately
requires `a`. -/
def fsCycle : List (String × String) :=
  [("test/a.pc", "Name: a\nVersion: 1\nDescription: d\nRequires: b a\nCflags: -DA\n"),
   ("test/b.pc", "Name: b\nVersion: 1\nDescription: d\nRequires.private: a\nCflags: -DB\n")]

set_option maxHeartbeats 2000000 in
/-- C9 amended: for packages that require each other (and themselves) by
plain module name, loading terminates and the query succeeds: the requiring
package is cached under its own name before its requires entries are
resolved, so the cyclic reference hits the cache, and the merger's
visited-set expansion terminates. -/
theorem C9_amended_plain_name_cycle_terminates :
    cflagsQ fsCycle spT 10 ["a"] =
      some (.ok { flags := ["-DA", "-DB"], files := ["test/a.pc", "test/b.pc"] }) := by
  decide

/-!
### Claim C4: duplicate Conflicts detection

The duplicate check tests `conflicts.length > 0` on the accumulated list,
not a this-field-was-seen flag, so a first `Conflicts` occurrence that
parsed to the empty module list does not make a later occurrence fail.
-/

/-- C4 counterexample: a `.pc` file whose `Conflicts` field occurs twice,
the first occurrence parsing to an empty module list, parses successfully
(no Conflicts-duplicate error), and the second occurrence's module list is
kept. -/
theorem C4_counterexample :
    Except.map (fun p => List.map RequiredVersion.name p.conflicts)
        (parsePackageFileM "conflicts-empty" "test/conflicts-empty.pc"
          "Name: x\nVersion: 1\nDescription: d\nConflicts:\nConflicts: other < 1\n"
          false) = .ok ["other"] := by
  decide

/-- C4 amended: parsing a `Conflicts` field fails with the
Conflicts-duplicate error exactly when the package's accumulated conflicts
list is nonempty; an earlier occurrence that parsed to the empty module list
leaves the list empty and is not detected. -/
theorem C4_amended_duplicate_of_nonempty (p : PkgData) (str path : String)
    (h : p.conflicts ≠ []) :
    parseConflictsF p str path =
      .error ("Conflicts field occurs multiple times in '" ++ path ++ "'") := by
  unfold parseConflictsF
  rw [if_pos (List.length_pos.mpr h)]

/-- C4 amended, witness: a package with one accumulated conflict rejects a
second `Conflicts` field. -/
theorem C4_amended_duplicate_of_nonempty_witness :
    (([{ name := "q", comparison := ComparisonType.always, version := none }] :
        List RequiredVersion) ≠ []) ∧
    parseConflictsF
        { key := "k",
          conflicts := [{ name := "q", comparison := ComparisonType.always,
                          version := none }] } "other" "p.pc"
      = .error "Conflicts field occurs multiple times in 'p.pc'" :=
  ⟨by decide,
   C4_amended_duplicate_of_nonempty
     { key := "k",
       conflicts := [{ name := "q", comparison := ComparisonType.always,
                       version := none }] } "other" "p.pc" (by decide)⟩

/-!
### Claim C8: `libs ⊆ privateLibs`

`parseLibs` appends the public flags to `privateLibs` as well, and
`parseLibsPrivate` only ever appends to `privateLibs`, so the invariant
"every flag of `libs` is in `privateLibs`" holds through every line.
-/

/-- `parseLibs` preserves the `libs ⊆ privateLibs` invariant. -/
theorem parseLibsF_sub (p : PkgData) (s path : String) (q : PkgData)
    (hinv : ∀ f ∈ p.libs, f ∈ p.privateLibs)
    (h : parseLibsF p s path = .ok q) :
    ∀ f ∈ q.libs, f ∈ q.privateLibs := by
  unfold parseLibsF at h
  repeat' split at h
  all_goals
    first
      | exact Except.noConfusion h
      | (injection h with h2
         subst h2
         exact hinv)
      | (injection h with h2
         subst h2
         intro f hf
         exact List.mem_append_right _ hf)

/-- `parseLibsPrivate` preserves the invariant. -/
theorem parseLibsPrivateF_sub (p : PkgData) (s path : String) (q : PkgData)
    (hinv : ∀ f ∈ p.libs, f ∈ p.privateLibs)
    (h : parseLibsPrivateF p s path = .ok q) :
    ∀ f ∈ q.libs, f ∈ q.privateLibs := by
  unfold parseLibsPrivateF at h
  repeat' split at h
  all_goals
    first
      | exact Except.noConfusion h
      | (injection h with h2
         subst h2
         exact hinv)
      | (injection h with h2
         subst h2
         intro f hf
         exact List.mem_append_left _ (hinv f hf))

/-- `parseCflags` leaves `libs` and `privateLibs` unchanged. -/
theorem parseCflagsF_sub (p : PkgData) (s path : String) (q : PkgData)
    (hinv : ∀ f ∈ p.libs, f ∈ p.privateLibs)
    (h : parseCflagsF p s path = .ok q) :
    ∀ f ∈ q.libs, f ∈ q.privateLibs := by
  unfold parseCflagsF at h
  repeat' split at h
  all_goals
    first
      | exact Except.noConfusion h
      | (injection h with h2
         subst h2
         exact hinv)

/-- `parseRequires` leaves `libs` and `privateLibs` unchanged. -/
theorem parseRequiresF_sub (p : PkgData) (s path : String) (q : PkgData)
    (hinv : ∀ f ∈ p.libs, f ∈ p.privateLibs)
    (h : parseRequiresF p s path = .ok q) :
    ∀ f ∈ q.libs, f ∈ q.privateLibs := by
  unfold parseRequiresF at h
  repeat' split at h
  all_goals
    first
      | exact Except.noConfusion h
      | (injection h with h2
         subst h2
         exact hinv)

/-- `parseRequiresPrivate` leaves `libs` and `privateLibs` unchanged. -/
theorem parseRequiresPrivateF_sub (p : PkgData) (s path : String) (q : PkgData)
    (hinv : ∀ f ∈ p.libs, f ∈ p.privateLibs)
    (h : parseRequiresPrivateF p s path = .ok q) :
    ∀ f ∈ q.libs, f ∈ q.privateLibs := by
  unfold parseRequiresPrivateF at h
  repeat' split at h
  all_goals
    first
      | exact Except.noConfusion h
      | (injection h with h2
         subst h2
         exact hinv)

/-- `parseConflicts` leaves `libs` and `privateLibs` unchanged. -/
theorem parseConflictsF_sub (p : PkgData) (s path : String) (q : PkgData)
    (hinv : ∀ f ∈ p.libs, f ∈ p.privateLibs)
    (h : parseConflictsF p s path = .ok q) :
    ∀ f ∈ q.libs, f ∈ q.privateLibs := by
  unfold parseConflictsF at h
  repeat' split at h
  all_goals
    first
      | exact Except.noConfusion h
      | (injection h with h2
         subst h2
         exact hinv)

/-- `parseNameF` leaves `libs` and `privateLibs` unchanged. -/
theorem parseNameF_sub (p : PkgData) (s path : String) (q : PkgData)
    (hinv : ∀ f ∈ p.libs, f ∈ p.privateLibs)
    (h : parseNameF p s path = .ok q) :
    ∀ f ∈ q.libs, f ∈ q.privateLibs := by
  unfold parseNameF at h
  repeat' split at h
  all_goals
    first
      | exact Except.noConfusion h
      | (injection h with h2
         subst h2
         exact hinv)

/-- `parseVersionF` leaves `libs` and `privateLibs` unchanged. -/
theorem parseVersionF_sub (p : PkgData) (s path : String) (q : PkgData)
    (hinv : ∀ f ∈ p.libs, f ∈ p.privateLibs)
    (h : parseVersionF p s path = .ok q) :
    ∀ f ∈ q.libs, f ∈ q.privateLibs := by
  unfold parseVersionF at h
  repeat' split at h
  all_goals
    first
      | exact Except.noConfusion h
      | (injection h with h2
         subst h2
         exact hinv)

/-- `parseDescriptionF` leaves `libs` and `privateLibs` unchanged. -/
theorem parseDescriptionF_sub (p : PkgData) (s path : String) (q : PkgData)
    (hinv : ∀ f ∈ p.libs, f ∈ p.privateLibs)
    (h : parseDescriptionF p s path = .ok q) :
    ∀ f ∈ q.libs, f ∈ q.privateLibs := by
  unfold parseDescriptionF at h
  repeat' split at h
  all_goals
    first
      | exact Except.noConfusion h
      | (injection h with h2
         subst h2
         exact hinv)

/-- `parseUrlF` leaves `libs` and `privateLibs` unchanged. -/
theorem parseUrlF_sub (p : PkgData) (s path : String) (q : PkgData)
    (hinv : ∀ f ∈ p.libs, f ∈ p.privateLibs)
    (h : parseUrlF p s path = .ok q) :
    ∀ f ∈ q.libs, f ∈ q.privateLibs := by
  unfold parseUrlF at h
  repeat' split at h
  all_goals
    first
      | exact Except.noConfusion h
      | (injection h with h2
         subst h2
         exact hinv)

/-- `parseVarLineF` leaves `libs` and `privateLibs` unchanged. -/
theorem parseVarLineF_sub (p : PkgData) (tag s path : String) (q : PkgData)
    (hinv : ∀ f ∈ p.libs, f ∈ p.privateLibs)
    (h : parseVarLineF p tag s path = .ok q) :
    ∀ f ∈ q.libs, f ∈ q.privateLibs := by
  unfold parseVarLineF at h
  repeat' split at h
  all_goals
    first
      | exact Except.noConfusion h
      | (injection h with h2
         subst h2
         exact hinv)

set_option maxHeartbeats 4000000 in
/-- Every `parseLine` step preserves the invariant. -/
theorem parseLineF_sub (p : PkgData) (line path : String) (ig : Bool) (q : PkgData)
    (hinv : ∀ f ∈ p.libs, f ∈ p.privateLibs)
    (h : parseLineF p line path ig = .ok q) :
    ∀ f ∈ q.libs, f ∈ q.privateLibs := by
  unfold parseLineF at h
  repeat' split at h
  all_goals
    first
      | (injection h with h2
         subst h2
         exact hinv)
      | exact parseNameF_sub p _ _ q hinv h
      | exact parseVersionF_sub p _ _ q hinv h
      | exact parseDescriptionF_sub p _ _ q hinv h
      | exact parseUrlF_sub p _ _ q hinv h
      | exact parseVarLineF_sub p _ _ _ q hinv h
      | exact parseRequiresPrivateF_sub p _ _ q hinv h
      | exact parseRequiresF_sub p _ _ q hinv h
      | exact parseLibsPrivateF_sub p _ _ q hinv h
      | exact parseLibsF_sub p _ _ q hinv h
      | exact parseCflagsF_sub p _ _ q hinv h
      | exact parseConflictsF_sub p _ _ q hinv h

/-- The line loop preserves the invariant. -/
theorem parsePkgLines_sub (path : String) (ig : Bool) :
    ∀ (ls : List (List Char)) (p q : PkgData),
    (∀ f ∈ p.libs, f ∈ p.privateLibs) →
    parsePkgLines path ig p ls = .ok q →
    ∀ f ∈ q.libs, f ∈ q.privateLibs := by
  intro ls
  induction ls with
  | nil =>
    intro p q hinv h
    injection h with h2
    subst h2
    exact hinv
  | cons l ls ih =>
    intro p q hinv h
    unfold parsePkgLines at h
    cases hL : parseLineF p (String.mk l) path ig with
    | error e => rw [hL] at h; exact Except.noConfusion h
    | ok p' =>
      rw [hL] at h
      exact ih p' q (parseLineF_sub p (String.mk l) path ig p' hinv hL) h

/-- C8: for every package successfully parsed from a `.pc` file, every flag
of its `libs` sequence also appears in its `privateLibs` sequence: `libs`
updates append the same flags to `privateLibs`, and no other field handler
removes from `privateLibs`. -/
theorem C8_libs_subset_privateLibs (key path content : String) (ig : Bool)
    (p : PkgData) (h : parsePackageFileM key path content ig = .ok p) :
    ∀ f ∈ p.libs, f ∈ p.privateLibs := by
  unfold parsePackageFileM at h
  exact parsePkgLines_sub path ig (readLines content) _ p
    (fun f hf => absurd hf (List.not_mem_nil f)) h

/-- A two-field fixture for the C8 witness. -/
def c8Parsed : PkgData :=
  match parsePackageFileM "w" "test/w.pc"
      "Name: w\nVersion: 1\nDescription: d\nLibs: -lfoo\nLibs.private: -lbar\n"
      false with
  | .ok p => p
  | .error _ => { key := "" }

/-- C8 witness: the parsed fixture's `-lfoo` flag, which is in `libs`, is
also in `privateLibs`. -/
theorem C8_libs_subset_privateLibs_witness :
    ({ type := 8, args := ["-lfoo"] } : Flag) ∈ c8Parsed.privateLibs :=
  C8_libs_subset_privateLibs "w" "test/w.pc"
    "Name: w\nVersion: 1\nDescription: d\nLibs: -lfoo\nLibs.private: -lbar\n"
    false c8Parsed (by decide) { type := 8, args := ["-lfoo"] } (by decide)

/-!
### Claim C2: no two consecutive equal flags in any query output

`flag_list_strip_duplicates` skips a flag equal to the last pushed one, so
each pass's output has no consecutive equal flags; across the two passes the
flags differ in type because each loadable flag's type is one of the five
classification constants and the two masks of every query are disjoint over
those.
-/

/-- `Flag.equals` is full equality of the record. -/
theorem flagEquals_iff (a b : Flag) : flagEquals a b = true ↔ a = b := by
  cases a
  cases b
  simp [flagEquals, Bool.and_eq_true]

/-- `Flag.equals` is `false` exactly on distinct flags. -/
theorem flagEquals_false (a b : Flag) : flagEquals a b = false ↔ a ≠ b := by
  rw [Bool.eq_false_iff, Ne, Ne, flagEquals_iff]

/-- The inner dedup loop preserves "no consecutive equal flags" of the
reversed accumulator. -/
theorem emitPkgFlags_chain (mask : Nat) :
    ∀ (fs accRev : List Flag),
    accRev.Chain' (fun a b => flagEquals a b = false) →
    (emitPkgFlags mask fs accRev).Chain' (fun a b => flagEquals a b = false) := by
  intro fs
  induction fs with
  | nil => intro accRev h; exact h
  | cons f fs ih =>
    intro accRev h
    simp only [emitPkgFlags]
    split
    · split
      · exact ih [f] (List.chain'_singleton f)
      · split
        · exact ih _ h
        · rename_i last tail hne
          exact ih _ (List.chain'_cons.mpr ⟨Bool.eq_false_iff.mpr hne, h⟩)
    · exact ih accRev h

/-- Every flag the inner loop emits is from the accumulator or is a matching
input flag. -/
theorem emitPkgFlags_mem (mask : Nat) :
    ∀ (fs accRev : List Flag) (g : Flag), g ∈ emitPkgFlags mask fs accRev →
    g ∈ accRev ∨ (g ∈ fs ∧ flagHasType g mask = true) := by
  intro fs
  induction fs with
  | nil => intro accRev g hg; exact Or.inl hg
  | cons f fs ih =>
    intro accRev g hg
    simp only [emitPkgFlags] at hg
    split at hg
    · rename_i hty
      split at hg
      · rcases ih [f] g hg with h1 | h2
        · rcases List.mem_singleton.mp h1 with rfl
          exact Or.inr ⟨List.mem_cons_self _ _, hty⟩
        · exact Or.inr ⟨List.mem_cons_of_mem f h2.1, h2.2⟩
      · split at hg
        · rcases ih _ g hg with h1 | h2
          · exact Or.inl h1
          · exact Or.inr ⟨List.mem_cons_of_mem f h2.1, h2.2⟩
        · rcases ih _ g hg with h1 | h2
          · rcases List.mem_cons.mp h1 with rfl | h1'
            · exact Or.inr ⟨List.mem_cons_self _ _, hty⟩
            · exact Or.inl h1'
          · exact Or.inr ⟨List.mem_cons_of_mem f h2.1, h2.2⟩
    · rcases ih accRev g hg with h1 | h2
      · exact Or.inl h1
      · exact Or.inr ⟨List.mem_cons_of_mem f h2.1, h2.2⟩

/-- The package loop preserves the chain; the final reverse keeps it because
flag inequality is symmetric. -/
theorem emitFlags_chain (keySel : PkgData → List Flag) (mask : Nat) :
    ∀ (pkgs : List PkgData) (accRev : List Flag),
    accRev.Chain' (fun a b => flagEquals a b = false) →
    (emitFlags keySel mask pkgs accRev).Chain' (fun a b => flagEquals a b = false) := by
  intro pkgs
  induction pkgs with
  | nil =>
    intro accRev h
    show (accRev.reverse).Chain' (fun a b => flagEquals a b = false)
    rw [List.chain'_reverse]
    exact h.imp (fun a b hab =>
      (flagEquals_false b a).mpr (Ne.symm ((flagEquals_false a b).mp hab)))
  | cons pkg rest ih =>
    intro accRev h
    exact ih _ (emitPkgFlags_chain mask (keySel pkg) accRev h)

/-- Every emitted flag comes from some processed package's selected list and
matches the mask. -/
theorem emitFlags_mem (keySel : PkgData → List Flag) (mask : Nat) :
    ∀ (pkgs : List PkgData) (accRev : List Flag) (g : Flag),
    g ∈ emitFlags keySel mask pkgs accRev →
    g ∈ accRev ∨ ∃ p, p ∈ pkgs ∧ g ∈ keySel p ∧ flagHasType g mask = true := by
  intro pkgs
  induction pkgs with
  | nil => intro accRev g hg; exact Or.inl (List.mem_reverse.mp hg)
  | cons pkg rest ih =>
    intro accRev g hg
    rcases ih _ g hg with h1 | ⟨p, hp, hg2, ht⟩
    · rcases emitPkgFlags_mem mask (keySel pkg) accRev g h1 with h2 | ⟨hgk, ht⟩
      · exact Or.inl h2
      · exact Or.inr ⟨pkg, List.mem_cons_self pkg rest, hgk, ht⟩
    · exact Or.inr ⟨p, List.mem_cons_of_mem pkg hp, hg2, ht⟩

/-- `rflChildren` only adds store members to `expanded`, provided the
recursive call does. -/
theorem rflChildren_store
    (recur : PkgData → List String → List PkgData → Option (List String × List PkgData))
    (store : List PkgData)
    (hrec : ∀ p v1 e1 v2 e2, p ∈ store → (∀ x ∈ e1, x ∈ store) →
      recur p v1 e1 = some (v2, e2) → ∀ x ∈ e2, x ∈ store) :
    ∀ (ids : List Nat) (v : List String) (e : List PkgData)
      (v' : List String) (e' : List PkgData),
    (∀ x ∈ e, x ∈ store) →
    rflChildren recur store ids v e = some (v', e') →
    ∀ x ∈ e', x ∈ store := by
  intro ids
  induction ids with
  | nil =>
    intro v e v' e' he h
    injection h with h2
    injection h2 with h3 h4
    subst h4
    exact he
  | cons cid rest ih =>
    intro v e v' e' he h
    unfold rflChildren at h
    split at h
    · exact ih v e v' e' he h
    · rename_i child hchild
      split at h
      · exact Option.noConfusion h
      · rename_i v1 e1 hrec1
        exact ih v1 e1 v' e'
          (hrec child v e v1 e1 (List.get?_mem hchild) he hrec1) h

/-- `recursiveFillList` only adds store members to `expanded`. -/
theorem rflFuel_store (store : List PkgData) :
    ∀ (fuel : Nat) (pkg : PkgData) (inc : Bool) (v : List String)
      (e : List PkgData) (v' : List String) (e' : List PkgData),
    pkg ∈ store → (∀ x ∈ e, x ∈ store) →
    rflFuel store fuel pkg inc v e = some (v', e') →
    ∀ x ∈ e', x ∈ store := by
  intro fuel
  induction fuel with
  | zero => intro pkg inc v e v' e' hpkg he h; exact Option.noConfusion h
  | succ fuel ih =>
    intro pkg inc v e v' e' hpkg he h
    unfold rflFuel at h
    split at h
    · injection h with h2
      injection h2 with h3 h4
      subst h4
      exact he
    · cases hch : rflChildren (fun p v e => rflFuel store fuel p inc v e) store
          ((if inc = true then pkg.requiresPrivate else pkg.requires).reverse)
          (pkg.key :: v) e with
      | none => rw [hch] at h; exact Option.noConfusion h
      | some pr =>
        obtain ⟨v1, e1⟩ := pr
        rw [hch] at h
        injection h with h2
        injection h2 with h3 h4
        subst h4
        intro x hx
        rcases List.mem_cons.mp hx with rfl | hx'
        · exact hpkg
        · exact rflChildren_store _ store
            (fun p pv pe pv2 pe2 hp hpe hr => ih p inc pv pe pv2 pe2 hp hpe hr)
            _ _ _ _ _ he hch x hx'

/-- The root loop only adds store members to `expanded`. -/
theorem rflRoots_store (store : List PkgData) (fuel : Nat) (inc : Bool) :
    ∀ (ids : List Nat) (v : List String) (e : List PkgData)
      (v' : List String) (e' : List PkgData),
    (∀ x ∈ e, x ∈ store) →
    rflRoots store fuel inc ids v e = some (v', e') →
    ∀ x ∈ e', x ∈ store := by
  intro ids
  induction ids with
  | nil =>
    intro v e v' e' he h
    injection h with h2
    injection h2 with h3 h4
    subst h4
    exact he
  | cons id rest ih =>
    intro v e v' e' he h
    unfold rflRoots at h
    split at h
    · exact ih v e v' e' he h
    · rename_i pkg hpkg
      split at h
      · exact Option.noConfusion h
      · rename_i v1 e1 hfl
        exact ih v1 e1 v' e'
          (rflFuel_store store fuel pkg inc v e v1 e1 (List.get?_mem hpkg) he hfl) h

/-- Insertion produces no new elements. -/
theorem pkgInsert_mem (x : PkgData) :
    ∀ (l : List PkgData) (y : PkgData), y ∈ pkgInsert x l → y = x ∨ y ∈ l := by
  intro l
  induction l with
  | nil => intro y hy; exact Or.inl (List.mem_singleton.mp hy)
  | cons z zs ih =>
    intro y hy
    unfold pkgInsert at hy
    split at hy
    · rcases List.mem_cons.mp hy with rfl | hy'
      · exact Or.inr (List.mem_cons_self y zs)
      · rcases ih y hy' with h | h
        · exact Or.inl h
        · exact Or.inr (List.mem_cons_of_mem z h)
    · rcases List.mem_cons.mp hy with rfl | hy'
      · exact Or.inl rfl
      · exact Or.inr hy'

/-- The stable path sort produces no new elements. -/
theorem sortByPathPos_mem :
    ∀ (l : List PkgData) (y : PkgData), y ∈ sortByPathPos l → y ∈ l := by
  intro l
  induction l with
  | nil => intro y hy; exact hy
  | cons x xs ih =>
    intro y hy
    rcases pkgInsert_mem x _ y hy with rfl | h
    · exact List.mem_cons_self y xs
    · exact List.mem_cons_of_mem x (ih y h)

/-- A successful `getMultiMerged` pass yields a list with no consecutive
equal flags, all of whose flags come from store packages' selected lists and
match the pass mask. -/
theorem getMultiMergedFlags_ok (store : List PkgData) (ids : List Nat)
    (keySel : PkgData → List Flag) (mask : Nat) (po inc : Bool) (l : List Flag)
    (h : getMultiMergedFlags store ids keySel mask po inc = .ok l) :
    l.Chain' (fun a b => flagEquals a b = false) ∧
    ∀ g ∈ l, (∃ p ∈ store, g ∈ keySel p) ∧ flagHasType g mask = true := by
  unfold getMultiMergedFlags at h
  split at h
  · exact Except.noConfusion h
  · rename_i w expanded heq
    injection h with h2
    subst h2
    constructor
    · exact emitFlags_chain keySel mask _ [] List.chain'_nil
    · intro g hg
      rcases emitFlags_mem keySel mask _ [] g hg with h1 | ⟨p, hp, hgk, ht⟩
      · exact absurd h1 (List.not_mem_nil g)
      · refine ⟨⟨p, ?_, hgk⟩, ht⟩
        have hbase : ∀ x ∈ ([] : List PkgData), x ∈ store :=
          fun x hx => absurd hx (List.not_mem_nil x)
        cases po with
        | false => exact rflRoots_store store _ inc _ _ _ _ _ hbase heq p hp
        | true =>
          exact rflRoots_store store _ inc _ _ _ _ _ hbase heq p
            (sortByPathPos_mem expanded p hp)

/-- A flag's bitmask type is one of the five classification constants
(`doParseCflags`/`doParseLibs` produce nothing else). -/
def flagClassified (f : Flag) : Bool :=
  (f.type == CFLAGS_I) || (f.type == CFLAGS_OTHER) || (f.type == LIBS_L)
    || (f.type == LIBS_l) || (f.type == LIBS_OTHER)

/-- All of a package's flag lists are classified. -/
def pkgFlagsClassified (p : PkgData) : Bool :=
  p.cflags.all flagClassified && p.libs.all flagClassified
    && p.privateLibs.all flagClassified

/-- All flags of every stored package are classified (true of every loadable
store, since parsing classifies each flag into exactly one constant). -/
def storeFlagsClassified (store : List PkgData) : Bool :=
  store.all pkgFlagsClassified

/-- Unpack `storeFlagsClassified` at one flag. -/
theorem store_flag_classified (store : List PkgData)
    (h : storeFlagsClassified store = true) (p : PkgData) (hp : p ∈ store)
    (g : Flag) (hg : g ∈ p.cflags ∨ g ∈ p.libs ∨ g ∈ p.privateLibs) :
    flagClassified g = true := by
  have hpk := List.all_eq_true.mp h p hp
  unfold pkgFlagsClassified at hpk
  rw [Bool.and_eq_true, Bool.and_eq_true] at hpk
  obtain ⟨⟨hcf, hlb⟩, hpl⟩ := hpk
  rcases hg with hg | hg | hg
  · exact List.all_eq_true.mp hcf g hg
  · exact List.all_eq_true.mp hlb g hg
  · exact List.all_eq_true.mp hpl g hg

/-- An element of `getLast?` is a member. -/
theorem mem_of_getLast_opt {α : Type} {l : List α} {x : α}
    (hx : x ∈ l.getLast?) : x ∈ l := by
  obtain ⟨h, heq⟩ := List.mem_getLast?_eq_getLast hx
  rw [heq]
  exact List.getLast_mem h

/-- An element of `head?` is a member. -/
theorem mem_of_head_opt {α : Type} {l : List α} {x : α}
    (hx : x ∈ l.head?) : x ∈ l := by
  rw [List.eq_cons_of_mem_head? hx]
  exact List.mem_cons_self x l.tail

/-- Two chains of classified flags matching disjoint masks concatenate into
a chain: the boundary flags differ because no classified type matches both
masks. -/
theorem chain'_append_flags (m1 m2 : Nat) (l1 l2 : List Flag)
    (h1 : l1.Chain' (fun a b => flagEquals a b = false))
    (h2 : l2.Chain' (fun a b => flagEquals a b = false))
    (ht1 : ∀ g ∈ l1, flagHasType g m1 = true ∧ flagClassified g = true)
    (ht2 : ∀ g ∈ l2, flagHasType g m2 = true)
    (hdisj : ∀ t : Nat, (t = 1 ∨ t = 2 ∨ t = 4 ∨ t = 8 ∨ t = 16) →
      Nat.land t m1 ≠ 0 → Nat.land t m2 ≠ 0 → False) :
    (l1 ++ l2).Chain' (fun a b => flagEquals a b = false) := by
  rw [List.chain'_append]
  refine ⟨h1, h2, ?_⟩
  intro x hx y hy
  have hx1 : x ∈ l1 := mem_of_getLast_opt hx
  have hy1 : y ∈ l2 := mem_of_head_opt hy
  rw [flagEquals_false]
  intro hxy
  subst hxy
  obtain ⟨hm1, hc⟩ := ht1 x hx1
  have hm2 := ht2 x hy1
  have htypes : x.type = 1 ∨ x.type = 2 ∨ x.type = 4 ∨ x.type = 8 ∨ x.type = 16 := by
    unfold flagClassified at hc
    simp only [Bool.or_eq_true, beq_iff_eq, CFLAGS_I, CFLAGS_OTHER, LIBS_L,
      LIBS_l, LIBS_OTHER] at hc
    tauto
  have hland1 : Nat.land x.type m1 ≠ 0 := by
    unfold flagHasType at hm1
    simpa [bne_iff_ne] using hm1
  have hland2 : Nat.land x.type m2 ≠ 0 := by
    unfold flagHasType at hm2
    simpa [bne_iff_ne] using hm2
  exact hdisj x.type htypes hland1 hland2

/-- C2: for every query over a store all of whose flags are classified (as
parsing guarantees), the emitted flag sequence contains no two consecutive
equal flags — within each pass by the consecutive-duplicate strip, and
across the two passes because the pass masks are disjoint over the
classified types. -/
theorem C2_no_consecutive_equal_flags (store : List PkgData) (ids : List Nat)
    (hcls : storeFlagsClassified store = true) :
    (∀ l, cflagsFlagList store ids = .ok l →
      l.Chain' (fun a b => flagEquals a b = false)) ∧
    (∀ l, libsFlagList store ids = .ok l →
      l.Chain' (fun a b => flagEquals a b = false)) ∧
    (∀ l, staticLibsFlagList store ids = .ok l →
      l.Chain' (fun a b => flagEquals a b = false)) := by
  refine ⟨?_, ?_, ?_⟩
  · intro l h
    unfold cflagsFlagList at h
    split at h
    · exact Except.noConfusion h
    · rename_i l1 heq1
      split at h
      · exact Except.noConfusion h
      · rename_i l2 heq2
        injection h with h2
        subst h2
        obtain ⟨hc1, hm1⟩ := getMultiMergedFlags_ok _ _ _ _ _ _ _ heq1
        obtain ⟨hc2, hm2⟩ := getMultiMergedFlags_ok _ _ _ _ _ _ _ heq2
        refine chain'_append_flags CFLAGS_OTHER CFLAGS_I l1 l2 hc1 hc2 ?_ ?_ ?_
        · intro g hg
          obtain ⟨⟨p, hp, hgp⟩, ht⟩ := hm1 g hg
          exact ⟨ht, store_flag_classified store hcls p hp g (Or.inl hgp)⟩
        · intro g hg
          exact (hm2 g hg).2
        · rintro t (rfl | rfl | rfl | rfl | rfl) hA hB <;>
            first
              | exact hA (by decide)
              | exact hB (by decide)
  · intro l h
    unfold libsFlagList at h
    split at h
    · exact Except.noConfusion h
    · rename_i l1 heq1
      split at h
      · exact Except.noConfusion h
      · rename_i l2 heq2
        injection h with h2
        subst h2
        obtain ⟨hc1, hm1⟩ := getMultiMergedFlags_ok _ _ _ _ _ _ _ heq1
        obtain ⟨hc2, hm2⟩ := getMultiMergedFlags_ok _ _ _ _ _ _ _ heq2
        refine chain'_append_flags LIBS_L (LIBS_OTHER.lor LIBS_l) l1 l2 hc1 hc2 ?_ ?_ ?_
        · intro g hg
          obtain ⟨⟨p, hp, hgp⟩, ht⟩ := hm1 g hg
          exact ⟨ht, store_flag_classified store hcls p hp g (Or.inr (Or.inl hgp))⟩
        · intro g hg
          exact (hm2 g hg).2
        · rintro t (rfl | rfl | rfl | rfl | rfl) hA hB <;>
            first
              | exact hA (by decide)
              | exact hB (by decide)
  · intro l h
    unfold staticLibsFlagList at h
    split at h
    · exact Except.noConfusion h
    · rename_i l1 heq1
      split at h
      · exact Except.noConfusion h
      · rename_i l2 heq2
        injection h with h2
        subst h2
        obtain ⟨hc1, hm1⟩ := getMultiMergedFlags_ok _ _ _ _ _ _ _ heq1
        obtain ⟨hc2, hm2⟩ := getMultiMergedFlags_ok _ _ _ _ _ _ _ heq2
        refine chain'_append_flags LIBS_L (LIBS_OTHER.lor LIBS_l) l1 l2 hc1 hc2 ?_ ?_ ?_
        · intro g hg
          obtain ⟨⟨p, hp, hgp⟩, ht⟩ := hm1 g hg
          exact ⟨ht, store_flag_classified store hcls p hp g (Or.inr (Or.inr hgp))⟩
        · intro g hg
          exact (hm2 g hg).2
        · rintro t (rfl | rfl | rfl | rfl | rfl) hA hB <;>
            first
              | exact hA (by decide)
              | exact hB (by decide)

/-- A store with a duplicate pair of CflagsOther flags, for the C2
witness. -/
def c2Store : List PkgData :=
  [{ key := "x",
     cflags := [{ type := 2, args := ["-DX"] }, { type := 2, args := ["-DX"] },
                { type := 1, args := ["-I", "d"] }] }]

/-- C2 witness: the concrete query over `c2Store` deduplicates the
consecutive pair and the result list is a chain of pairwise-unequal
neighbors. -/
theorem C2_no_consecutive_equal_flags_witness :
    List.Chain' (fun a b => flagEquals a b = false)
      [({ type := 2, args := ["-DX"] } : Flag), { type := 1, args := ["-I", "d"] }] :=
  (C2_no_consecutive_equal_flags c2Store [0] (by decide)).1
    [{ type := 2, args := ["-DX"] }, { type := 1, args := ["-I", "d"] }] (by decide)

/-!
### Claim C10: `parseModuleList` never hits its internal assertions

The two internal failures are the `BEFORE_OPERATOR` assertion of the split
state machine and the CharPtr bounds error of the cursor loops.  The former
is guarded by the lookahead invariant (the machine only enters
`BEFORE_OPERATOR` when an operator character follows the space run), the
latter by the cursor staying within the buffer (every loop starts at an
in-bounds index with enough fuel).
-/

/-- A module-list error that is not one of the internal assertions. -/
def mlErrBugFree : MLErr → Bool
  | MLErr.assertBug => false
  | MLErr.charPtrBug => false
  | _ => true

/-- A module-list result that hit neither internal assertion. -/
def mlBugFree {α : Type} : Except MLErr α → Bool
  | .error e => mlErrBugFree e
  | .ok _ => true

/-- Dereferencing an in-bounds index never reports the CharPtr bug; a
present character is the buffer's and is not NUL. -/
theorem derefE_ok (buf : List Char) (i : Nat) (hi : i ≤ buf.length) :
    ∃ o, derefE buf i = .ok o ∧
      (∀ c, o = some c → buf.get? i = some c ∧ ¬ c = nul) := by
  unfold derefE
  rw [if_neg (by omega : ¬ i > buf.length)]
  cases hg : buf.get? i with
  | none => exact ⟨none, rfl, fun c h => Option.noConfusion h⟩
  | some c =>
    by_cases hnul : c = nul
    · refine ⟨none, ?_, fun c' h => Option.noConfusion h⟩
      simp only [hg]
      rw [if_pos hnul]
    · refine ⟨some c, ?_, ?_⟩
      · simp only [hg]
        rw [if_neg hnul]
      · intro c' h
        injection h with h'
        subst h'
        exact ⟨rfl, hnul⟩

/-- The cursor loop started in bounds with enough fuel succeeds, moves the
cursor forward but not out of bounds, and preserves the buffer length. -/
theorem loopAdv_ok (w : Bool) (p : Char → Bool) :
    ∀ (fuel : Nat) (buf : List Char) (i : Nat),
    i ≤ buf.length → buf.length - i < fuel →
    ∃ buf' i', loopAdv w p fuel buf i = .ok (buf', i') ∧
      i ≤ i' ∧ i' ≤ buf.length ∧ buf'.length = buf.length := by
  intro fuel
  induction fuel with
  | zero => intro buf i hi hf; exact absurd hf (by omega)
  | succ fuel ih =>
    intro buf i hi hf
    obtain ⟨o, ho, hfacts⟩ := derefE_ok buf i hi
    unfold loopAdv
    cases o with
    | none =>
      simp only [ho]
      exact ⟨buf, i, rfl, Nat.le_refl i, hi, rfl⟩
    | some c =>
      simp only [ho]
      obtain ⟨hg, hnul⟩ := hfacts c rfl
      have hib : i < buf.length := by
        by_contra hle
        rw [List.get?_eq_none.mpr (by omega)] at hg
        exact Option.noConfusion hg
      by_cases hp : p c = true
      · rw [if_pos hp]
        have hlen : (if w = true then buf.set i nul else buf).length = buf.length := by
          cases w <;> simp
        obtain ⟨b', i', hrec, hle', hub', hl'⟩ :=
          ih (if w = true then buf.set i nul else buf) (i + 1)
            (by rw [hlen]; omega) (by rw [hlen]; omega)
        rw [hlen] at hub'
        rw [hlen] at hl'
        exact ⟨b', i', hrec, by omega, hub', hl'⟩
      · rw [if_neg hp]
        exact ⟨buf, i, rfl, Nat.le_refl i, hi, rfl⟩

/-- The head of a dropped list is the element at the drop index. -/
theorem head_drop_eq_get {α : Type} :
    ∀ (l : List α) (i : Nat), (l.drop i).head? = l.get? i := by
  intro l
  induction l with
  | nil => intro i; cases i <;> rfl
  | cons a as ih =>
    intro i
    cases i with
    | zero => rfl
    | succ n => exact ih n

/-- `CharPtr.toString` starting at a live, non-NUL character is nonempty. -/
theorem toStrAt_ne_empty (buf : List Char) (i : Nat) (c : Char)
    (h : buf.get? i = some c) (hc : ¬ c = nul) : ¬ toStrAt buf i = "" := by
  intro hcon
  unfold toStrAt at hcon
  have hd : (buf.drop i).head? = some c := by rw [head_drop_eq_get]; exact h
  cases hdrop : buf.drop i with
  | nil => rw [hdrop] at hd; exact Option.noConfusion hd
  | cons x xs =>
    rw [hdrop] at hd hcon
    injection hd with hx
    subst hx
    rw [List.takeWhile_cons] at hcon
    rw [if_pos (by simp [hc])] at hcon
    have := congrArg String.data hcon
    simp at this

/-- `parseCompOp` never yields the `always` comparison. -/
theorem parseCompOp_ne_always (s : String) (c : ComparisonType)
    (h : parseCompOp s = some c) : ¬ c = ComparisonType.always := by
  unfold parseCompOp at h
  split_ifs at h <;>
    first
      | exact Option.noConfusion h
      | (injection h with h'
         subst h'
         intro hx
         exact ComparisonType.noConfusion hx)

/-- `parseOneModule` hits neither internal assertion: the cursor loops stay
in bounds, and the name read after the separator skip is nonempty whenever
the empty-name check passed. -/
theorem parseOneModule_bugfree (m : String) : mlBugFree (parseOneModule m) = true := by
  obtain ⟨b1, s1, e1, le1a, le1b, len1⟩ :=
    loopAdv_ok false isModuleSeparator (m.data.length + 1) m.data 0
      (Nat.zero_le _) (by omega)
  obtain ⟨b2, p2, e2, le2a, le2b, len2⟩ :=
    loopAdv_ok false (fun c => ! isSpaceSrc c) (m.data.length + 1) b1 s1
      (by omega) (by omega)
  obtain ⟨b3, p3, e3, le3a, le3b, len3⟩ :=
    loopAdv_ok true isModuleSeparator (m.data.length + 1) b2 p2
      (by omega) (by omega)
  obtain ⟨o1, d1, f1⟩ := derefE_ok b3 s1 (by omega)
  cases o1 with
  | none =>
    simp only [parseOneModule, e1, e2, e3, d1]
    rfl
  | some c1 =>
    obtain ⟨hg1, hnul1⟩ := f1 c1 rfl
    have hname : ¬ toStrAt b3 s1 = "" := toStrAt_ne_empty b3 s1 c1 hg1 hnul1
    obtain ⟨b4, p4, e4, le4a, le4b, len4⟩ :=
      loopAdv_ok false (fun c => ! isSpaceSrc c) (m.data.length + 1) b3 p3
        (by omega) (by omega)
    obtain ⟨b5, p5, e5, le5a, le5b, len5⟩ :=
      loopAdv_ok true isSpaceSrc (m.data.length + 1) b4 p4
        (by omega) (by omega)
    obtain ⟨o2, d2, f2⟩ := derefE_ok b5 p3 (by omega)
    obtain ⟨b6, p6, e6, le6a, le6b, len6⟩ :=
      loopAdv_ok false (fun c => ! isModuleSeparator c) (m.data.length + 1) b5 p5
        (by omega) (by omega)
    obtain ⟨b7, p7, e7, le7a, le7b, len7⟩ :=
      loopAdv_ok true isModuleSeparator (m.data.length + 1) b6 p6
        (by omega) (by omega)
    obtain ⟨o3, d3, f3⟩ := derefE_ok b7 p5 (by omega)
    cases o2 with
    | none =>
      simp only [parseOneModule, e1, e2, e3, d1, e4, e5, d2, e6, e7, d3]
      rw [if_neg (fun h => Option.noConfusion h)]
      rw [if_neg (fun h => h.1 rfl)]
      rw [if_neg hname]
      rfl
    | some c2 =>
      cases hcmp : parseCompOp (toStrAt b5 p3) with
      | none =>
        simp only [parseOneModule, e1, e2, e3, d1, e4, e5, d2, hcmp, e6, e7, d3]
        rw [if_neg (fun h => Option.noConfusion h)]
        rfl
      | some cmpv =>
        have hcv := parseCompOp_ne_always _ _ hcmp
        cases o3 with
        | none =>
          simp only [parseOneModule, e1, e2, e3, d1, e4, e5, d2, hcmp, e6, e7, d3]
          rw [if_neg (fun h => Option.noConfusion h)]
          rw [if_pos ⟨hcv, trivial⟩]
          rfl
        | some c3 =>
          simp only [parseOneModule, e1, e2, e3, d1, e4, e5, d2, hcmp, e6, e7, d3]
          rw [if_neg (fun h => Option.noConfusion h)]
          rw [if_neg (fun h => Option.noConfusion h.2)]
          rw [if_neg hname]
          rfl

/-- Skipping a space at the head does not change the lookahead. -/
theorem msLookaheadOp_cons_space (c : Char) (rest : List Char)
    (hnul : ¬ c = nul) (hsp : isSpaceSrc c = true) :
    msLookaheadOp (c :: rest) = msLookaheadOp rest := by
  unfold msLookaheadOp
  rw [List.dropWhile_cons, if_pos (by simp [hnul, hsp])]

/-- At a non-space head the lookahead is just the operator-character test. -/
theorem msLookaheadOp_cons_nonspace (c : Char) (rest : List Char)
    (hnul : ¬ c = nul) (hsp : isSpaceSrc c = false) :
    msLookaheadOp (c :: rest) = isOperatorChar c := by
  unfold msLookaheadOp
  rw [List.dropWhile_cons, if_neg (by simp [hsp])]
  simp only [List.head?_cons]
  rw [if_neg hnul]

/-- The split walk succeeds whenever the `BEFORE_OPERATOR` invariant holds:
in that state an operator character follows the space run, so the assertion
in `msStep` is never reached. -/
theorem splitLoop_ok : ∀ (input : List Char) (state : MSState)
    (curAcc : List Char) (acc : List (List Char)),
    (state = MSState.beforeOp → msLookaheadOp input = true) →
    ∃ ms, splitLoop input state curAcc acc = .ok ms := by
  intro input
  induction input with
  | nil => intro state curAcc acc hinv; exact ⟨_, rfl⟩
  | cons c rest ih =>
    intro state curAcc acc hinv
    unfold splitLoop
    by_cases hnul : c = nul
    · rw [if_pos hnul]
      exact ⟨_, rfl⟩
    · rw [if_neg hnul]
      cases state with
      | outside =>
        simp only [msStep]
        by_cases hms : (! isModuleSeparator c) = true
        · rw [if_pos hms]
          exact ih MSState.inName (curAcc ++ [c]) acc (fun h => MSState.noConfusion h)
        · rw [if_neg hms]
          exact ih MSState.outside (curAcc ++ [c]) acc (fun h => MSState.noConfusion h)
      | inName =>
        simp only [msStep]
        by_cases hsp : isSpaceSrc c = true
        · rw [if_pos hsp]
          by_cases hla : msLookaheadOp (c :: rest) = true
          · rw [if_pos hla]
            exact ih MSState.beforeOp (curAcc ++ [c]) acc (fun _ => by
              rw [← msLookaheadOp_cons_space c rest hnul hsp]
              exact hla)
          · rw [if_neg hla]
            exact ih MSState.outside [c] (acc ++ [curAcc]) (fun h => MSState.noConfusion h)
        · rw [if_neg hsp]
          by_cases hms : isModuleSeparator c = true
          · rw [if_pos hms]
            exact ih MSState.outside [c] (acc ++ [curAcc]) (fun h => MSState.noConfusion h)
          · rw [if_neg hms]
            exact ih MSState.inName (curAcc ++ [c]) acc (fun h => MSState.noConfusion h)
      | beforeOp =>
        have hla := hinv rfl
        simp only [msStep]
        by_cases hop : isOperatorChar c = true
        · rw [if_pos hop]
          exact ih MSState.inOp (curAcc ++ [c]) acc (fun h => MSState.noConfusion h)
        · by_cases hsp : isSpaceSrc c = true
          · rw [if_neg hop, if_neg (by simp [hsp])]
            exact ih MSState.beforeOp (curAcc ++ [c]) acc (fun _ => by
              rw [← msLookaheadOp_cons_space c rest hnul hsp]
              exact hla)
          · exfalso
            rw [msLookaheadOp_cons_nonspace c rest hnul (Bool.eq_false_iff.mpr hsp)] at hla
            exact hop hla
      | inOp =>
        simp only [msStep]
        by_cases hop : (! isOperatorChar c) = true
        · rw [if_pos hop]
          exact ih MSState.afterOp (curAcc ++ [c]) acc (fun h => MSState.noConfusion h)
        · rw [if_neg hop]
          exact ih MSState.inOp (curAcc ++ [c]) acc (fun h => MSState.noConfusion h)
      | afterOp =>
        simp only [msStep]
        by_cases hsp : (! isSpaceSrc c) = true
        · rw [if_pos hsp]
          exact ih MSState.inVersion (curAcc ++ [c]) acc (fun h => MSState.noConfusion h)
        · rw [if_neg hsp]
          exact ih MSState.afterOp (curAcc ++ [c]) acc (fun h => MSState.noConfusion h)
      | inVersion =>
        simp only [msStep]
        by_cases hms : isModuleSeparator c = true
        · rw [if_pos hms]
          exact ih MSState.outside [c] (acc ++ [curAcc]) (fun h => MSState.noConfusion h)
        · rw [if_neg hms]
          exact ih MSState.inVersion (curAcc ++ [c]) acc (fun h => MSState.noConfusion h)

/-- The per-module loop propagates bug-freedom. -/
theorem parseMods_bugfree : ∀ (l : List String), mlBugFree (parseMods l) = true := by
  intro l
  induction l with
  | nil => rfl
  | cons m ms ih =>
    unfold parseMods
    cases h1 : parseOneModule m with
    | error e =>
      have hm := parseOneModule_bugfree m
      rw [h1] at hm
      exact hm
    | ok r =>
      cases h2 : parseMods ms with
      | error e =>
        rw [h2] at ih
        exact ih
      | ok rs =>
        rfl

/-- C10: for every input string, `parseModuleList` either returns a list of
predicates or throws one of its three documented errors (empty package name,
unknown comparison operator, comparison operator without version); the
internal assertion of `splitModuleList` and the CharPtr bounds error are
unreachable. -/
theorem C10_parseModuleList_no_internal_errors (str : String) :
    (∃ l, parseModuleListE str = Except.ok l) ∨
    (∃ e, parseModuleListE str = Except.error e ∧
      (e = MLErr.emptyName ∨ (∃ op name, e = MLErr.unknownOp op name) ∨
        (∃ name, e = MLErr.opNoVersion name))) := by
  have hbf : mlBugFree (parseModuleListE str) = true := by
    obtain ⟨ms, hms⟩ :=
      splitLoop_ok str.data MSState.outside [] [] (fun h => MSState.noConfusion h)
    unfold parseModuleListE splitModuleListE
    rw [hms]
    exact parseMods_bugfree (ms.map String.mk)
  cases hr : parseModuleListE str with
  | ok l => exact Or.inl ⟨l, rfl⟩
  | error e =>
    rw [hr] at hbf
    refine Or.inr ⟨e, rfl, ?_⟩
    cases e with
    | emptyName => exact Or.inl rfl
    | unknownOp op name => exact Or.inr (Or.inl ⟨op, name, rfl⟩)
    | opNoVersion name => exact Or.inr (Or.inr ⟨name, rfl⟩)
    | assertBug => exact Bool.noConfusion hbf
    | charPtrBug => exact Bool.noConfusion hbf

end Espkg
